import Mathlib

/-!
NE2000 Ethernet MAC driver (awbl_emac_ne2000): formal model.

The register map, bit masks, receive header and device instance are embedded
from `awbl_emac_ne2000.h`.  The driver operations (bring-up, receive drain,
overrun recovery, transmit, transmit completion, interrupt dispatch) live in
the paired implementation file, which is not part of the sources; they are
modelled from the specification and marked as such.

Machine integers are natural numbers with explicit reductions modulo `2^8`
and `2^16` where a register access or a structure field truncates.
-/

namespace NE2000

/-! ## Register map and bit masks (awbl_emac_ne2000.h) -/

/-- Page 0 read: command register. -/
def __ENE_CR : Nat := 0x00
/-- Page 0: boundary pointer. -/
def __ENE_BNRY : Nat := 0x03
/-- Page 0 read: TX status register. -/
def __ENE_TSR : Nat := 0x04
/-- Page 0: interrupt status register. -/
def __ENE_ISR : Nat := 0x07
/-- Page 0 write: page start. -/
def __ENE_PSTART : Nat := 0x01
/-- Page 0 write: page stop. -/
def __ENE_PSTOP : Nat := 0x02
/-- Page 0 write: TX page start address. -/
def __ENE_TPSR : Nat := 0x04
/-- Page 0 write: TX byte count 0. -/
def __ENE_TBCR0 : Nat := 0x05
/-- Page 0 write: TX byte count 1. -/
def __ENE_TBCR1 : Nat := 0x06
/-- Page 1: current page. -/
def __ENE_CURR : Nat := 0x07

/-- Command register: software reset. -/
def __ENE_CR_STOP : Nat := 0x01
/-- Command register: start ST-NIC. -/
def __ENE_CR_START : Nat := 0x02
/-- Command register: initiate packet transmission. -/
def __ENE_CR_TXP : Nat := 0x04
/-- Command register: abort/complete remote DMA. -/
def __ENE_RDMA_ABORT : Nat := 0x20
/-- Command register: select page 0. -/
def __ENE_PAGESEL_0 : Nat := 0x00
/-- Command register: select page 1. -/
def __ENE_PAGESEL_1 : Nat := 0x40

/-- ISR bit: packet received. -/
def __ENE_ISR_PRX : Nat := 0x01
/-- ISR bit: packet sent. -/
def __ENE_ISR_PTX : Nat := 0x02
/-- ISR bit: receive error. -/
def __ENE_ISR_RXE : Nat := 0x04
/-- ISR bit: transmit error. -/
def __ENE_ISR_TXE : Nat := 0x08
/-- ISR bit: RX overrun. -/
def __ENE_ISR_OVW : Nat := 0x10
/-- ISR bit: counter overflow. -/
def __ENE_ISR_CNT : Nat := 0x20
/-- ISR bit: remote DMA complete. -/
def __ENE_ISR_RDC : Nat := 0x40
/-- ISR bit: reset complete. -/
def __ENE_ISR_RST : Nat := 0x80

/-- TX status: frame transmitted. -/
def __ENE_TSR_PTX : Nat := 0x01
/-- TX status: collision detected. -/
def __ENE_TSR_COL : Nat := 0x04
/-- TX status: abort due to excess collisions. -/
def __ENE_TSR_ABT : Nat := 0x08
/-- TX status: carrier sense lost. -/
def __ENE_TSR_CRS : Nat := 0x10
/-- TX status: FIFO underrun. -/
def __ENE_TSR_FU : Nat := 0x20
/-- TX status: CD heartbeat failure. -/
def __ENE_TSR_CDH : Nat := 0x40
/-- TX status: out of window (late) collision. -/
def __ENE_TSR_OWC : Nat := 0x80

/-- RX status: frame received. -/
def __ENE_RSR_PRX : Nat := 0x01

/-! ## Data structures (awbl_emac_ne2000.h) -/

/-- Receive packet header `struct __ene_rxpkt_hdr`: `uint8_t status`,
`uint8_t next_page`, `uint16_t len`. -/
structure __ene_rxpkt_hdr where
  status : Nat
  next_page : Nat
  len : Nat
  deriving DecidableEq, Repr

/-- Device instance `struct awbl_ne2000_dev`, restricted to the scalar fields
the driver logic reads and writes.  `reg_offset` is the per-board offset
array. -/
structure awbl_ne2000_dev where
  tx_start_page : Nat
  rx_start_page : Nat
  rx_curr_page : Nat
  stop_page : Nat
  tx1 : Nat
  tx2 : Nat
  txing : Nat
  rx_handling : Bool
  rx_overrun : Bool
  int_mask : Nat
  phy_mode : Nat
  phy_stat : Nat
  reg_offset : List Nat
  ene_init_flg : Nat
  deriving DecidableEq, Repr

/-! ## Ring geometry (specification section 4.2) -/

/-- Modelled from the spec: the page allocator's ring geometry (the
implementation file is missing); a start/stop page pair and the ring length. -/
structure ring_geometry where
  rx_start : Nat
  stop : Nat
  length : Nat
  deriving DecidableEq, Repr

/-- Modelled from the spec: the page allocator's constructor (the
implementation file is missing); "given a proposed start/stop page pair,
validates stop > start, computes ring length". -/
def ring_geometry_make (start stop : Nat) : Option ring_geometry :=
  if stop > start then some { rx_start := start, stop := stop, length := stop - start }
  else none

/-- Modelled from the spec: the page allocator's `advance` (the implementation
file is missing); "advance(page) -> next page wrapping at stop back to
rx_start". -/
def advance (g : ring_geometry) (page : Nat) : Nat :=
  if page + 1 ≥ g.stop then g.rx_start else page + 1

/-! ## Controller hardware and observable events -/

/-- Modelled from the spec: size in bytes of one page of the controller's
buffer memory (hardware, not part of the sources); the glossary's 256. -/
def ENE_PAGE_SIZE : Nat := 256

/-- Size in bytes of `struct __ene_rxpkt_hdr` (two `uint8_t` and one
`uint16_t`). -/
def ENE_HDR_SIZE : Nat := 4

/-- Modelled from the spec: the device-specific bound on the number of polls
for the reset-complete indication (the implementation file is missing). -/
def ENE_RESET_TIMEOUT : Nat := 100

/-- Modelled from the spec: number of pages of one transmit slot (the
implementation file is missing); six pages hold one maximum-size frame. -/
def ENE_TX_SLOT_PAGES : Nat := 6

/-- Modelled from the spec: the controller behind the register access layer
(hardware, not part of the sources).  The fields are the registers the driver
logic touches, the buffer memory as a byte map, and `rst_delay`, the number of
further status polls a stopped controller needs before it indicates
reset-complete. -/
structure Hw where
  cr : Nat
  isr : Nat
  bnry : Nat
  curr : Nat
  tsr : Nat
  pstart : Nat
  pstop : Nat
  tpsr : Nat
  tbcr0 : Nat
  tbcr1 : Nat
  rst_delay : Nat
  mem : Nat → Nat

/-- Modelled from the spec: what the driver does to its collaborators, in
order (the implementation file is missing): register reads and writes through
the register access layer (page, logical index, value), remote-DMA transfers,
and the network-interface callbacks. -/
inductive Event where
  | reg_read (page idx val : Nat)
  | reg_write (page idx val : Nat)
  | rdma_read (addr count : Nat)
  | rdma_write (addr : Nat) (data : List Nat)
  | on_frame_received (data : List Nat)
  | on_send_complete (slot : Nat) (ok : Bool)
  deriving DecidableEq, Repr

/-- Modelled from the spec: result codes of the driver operations (the
implementation file is missing). -/
inductive Result where
  | ok
  | not_initialized
  | busy
  | timeout
  | invalid_geometry
  deriving DecidableEq, Repr

/-- Modelled from the spec: a device instance together with the controller it
drives, the state the missing implementation file works on. -/
structure State where
  dev : awbl_ne2000_dev
  hw : Hw

/-- Modelled from the spec: byte read of the interrupt status register
(hardware behaviour, not part of the sources).  A stopped controller
indicates reset-complete once `rst_delay` polls have elapsed. -/
def read_isr (hw : Hw) : Nat × Hw :=
  if hw.cr &&& __ENE_CR_STOP ≠ 0 then
    if hw.rst_delay = 0 then ((hw.isr ||| __ENE_ISR_RST) % 256, hw)
    else (hw.isr % 256, { hw with rst_delay := hw.rst_delay - 1 })
  else (hw.isr % 256, hw)

/-- Modelled from the spec: byte read of the current page register, page 1
(hardware behaviour, not part of the sources). -/
def read_curr (hw : Hw) : Nat := hw.curr % 256

/-- Modelled from the spec: byte read of the TX status register (hardware
behaviour, not part of the sources). -/
def read_tsr (hw : Hw) : Nat := hw.tsr % 256

/-- Modelled from the spec: byte write of the command register (hardware
behaviour, not part of the sources). -/
def write_cr (hw : Hw) (v : Nat) : Hw := { hw with cr := v % 256 }

/-- Modelled from the spec: byte write of the interrupt status register
(hardware behaviour, not part of the sources); writing a one clears the
bit. -/
def write_isr (hw : Hw) (v : Nat) : Hw :=
  { hw with isr := (hw.isr % 256) &&& (0xFF ^^^ (v % 256)) }

/-- Modelled from the spec: byte write of the boundary pointer (hardware
behaviour, not part of the sources). -/
def write_bnry (hw : Hw) (v : Nat) : Hw := { hw with bnry := v % 256 }

/-- Modelled from the spec: byte write of the current page register, page 1
(hardware behaviour, not part of the sources). -/
def write_curr (hw : Hw) (v : Nat) : Hw := { hw with curr := v % 256 }

/-- Modelled from the spec: byte write of the page start register (hardware
behaviour, not part of the sources). -/
def write_pstart (hw : Hw) (v : Nat) : Hw := { hw with pstart := v % 256 }

/-- Modelled from the spec: byte write of the page stop register (hardware
behaviour, not part of the sources). -/
def write_pstop (hw : Hw) (v : Nat) : Hw := { hw with pstop := v % 256 }

/-- Modelled from the spec: byte write of the TX page start register (hardware
behaviour, not part of the sources). -/
def write_tpsr (hw : Hw) (v : Nat) : Hw := { hw with tpsr := v % 256 }

/-- Modelled from the spec: byte write of TX byte count 0 (hardware behaviour,
not part of the sources). -/
def write_tbcr0 (hw : Hw) (v : Nat) : Hw := { hw with tbcr0 := v % 256 }

/-- Modelled from the spec: byte write of TX byte count 1 (hardware behaviour,
not part of the sources). -/
def write_tbcr1 (hw : Hw) (v : Nat) : Hw := { hw with tbcr1 := v % 256 }

/-- Modelled from the spec: one step through a circular range `[lo, hi)`
(hardware behaviour, not part of the sources): after the last position before
`hi` comes `lo`. -/
def ring_step (lo hi x : Nat) : Nat := if x + 1 = hi then lo else x + 1

/-- Modelled from the spec: `i` steps through a circular range from `x`
(hardware behaviour, not part of the sources). -/
def ring_iter (lo hi x : Nat) : Nat → Nat
  | 0 => x
  | i + 1 => ring_step lo hi (ring_iter lo hi x i)

/-- Modelled from the spec: buffer address of byte `i` of a transfer that
starts at `a` (hardware behaviour, not part of the sources).  The receive
ring is circular: after the last byte before page stop comes the first byte
of page start. -/
def rdma_addr (hw : Hw) (a i : Nat) : Nat :=
  ring_iter (hw.pstart % 256 * ENE_PAGE_SIZE) (hw.pstop % 256 * ENE_PAGE_SIZE) a i

/-- Modelled from the spec: remote-DMA read of `count` bytes from buffer
address `addr` (hardware behaviour, not part of the sources); the address
follows the circular ring. -/
def rdma_read (hw : Hw) (addr count : Nat) : List Nat :=
  (List.range count).map (fun i => hw.mem (rdma_addr hw addr i) % 256)

/-- Modelled from the spec: remote-DMA write of `data` to buffer address
`addr` (hardware behaviour, not part of the sources). -/
def rdma_write (hw : Hw) (addr : Nat) (data : List Nat) : Hw :=
  { hw with mem := fun a =>
      if addr ≤ a ∧ a < addr + data.length then data.getD (a - addr) 0 % 256
      else hw.mem a }

/-- Modelled from the spec: the receive header the controller stored at the
start of ring page `page` (hardware behaviour, not part of the sources):
status byte, next-page byte, 16-bit little-endian length, the fields of
`struct __ene_rxpkt_hdr`. -/
def read_hdr (hw : Hw) (page : Nat) : __ene_rxpkt_hdr :=
  let a := page * ENE_PAGE_SIZE
  { status := hw.mem a % 256
    next_page := hw.mem (a + 1) % 256
    len := hw.mem (a + 2) % 256 + 256 * (hw.mem (a + 3) % 256) }

/-- Modelled from the spec: the ring geometry of a device instance, its
rx_start_page and stop_page (the implementation file is missing). -/
def dev_ring (dev : awbl_ne2000_dev) : ring_geometry :=
  { rx_start := dev.rx_start_page, stop := dev.stop_page,
    length := dev.stop_page - dev.rx_start_page }

/-- Modelled from the spec: ring wrap of a page number (the implementation
file is missing); a page at or past stop wraps back to rx_start. -/
def ring_wrap (g : ring_geometry) (page : Nat) : Nat :=
  if page ≥ g.stop then g.rx_start else page

/-- Modelled from the spec: header validation of receive step 2b (the
implementation file is missing): status has the received-OK bit, length within
`[header-size, ring-capacity]`, next_page inside `[rx_start_page, stop_page)`. -/
def hdr_valid (dev : awbl_ne2000_dev) (h : __ene_rxpkt_hdr) : Bool :=
  decide (h.status &&& __ENE_RSR_PRX ≠ 0) &&
  decide (ENE_HDR_SIZE ≤ h.len) &&
  decide (h.len ≤ (dev_ring dev).length * ENE_PAGE_SIZE) &&
  decide (dev.rx_start_page ≤ h.next_page) &&
  decide (h.next_page < dev.stop_page)

/-! ## Driver operations (specification sections 4.3 to 4.5) -/

/-- Modelled from the spec: command value that stops the controller (the
implementation file is missing), built from the header's bit masks. -/
def ENE_CMD_STOP : Nat := __ENE_PAGESEL_0 ||| __ENE_RDMA_ABORT ||| __ENE_CR_STOP

/-- Modelled from the spec: command value that starts or resumes the
controller (the implementation file is missing), built from the header's bit
masks. -/
def ENE_CMD_START : Nat := __ENE_PAGESEL_0 ||| __ENE_RDMA_ABORT ||| __ENE_CR_START

/-- Modelled from the spec: command value that initiates a transmission on a
running controller (the implementation file is missing), built from the
header's bit masks. -/
def ENE_CMD_TXP : Nat :=
  __ENE_PAGESEL_0 ||| __ENE_RDMA_ABORT ||| __ENE_CR_TXP ||| __ENE_CR_START

/-- Modelled from the spec: the bounded poll for the reset-complete
indication (the implementation file is missing).  Reads the interrupt status
register at most `n` times; returns the status value that showed
reset-complete, or `none` when the bound expires. -/
def wait_reset_complete : Nat → Hw → Option Nat × Hw × List Event
  | 0, hw => (none, hw, [])
  | n + 1, hw =>
    let r := read_isr hw
    if r.1 &&& __ENE_ISR_RST ≠ 0 then
      (some r.1, r.2, [Event.reg_read 0 __ENE_ISR r.1])
    else
      let w := wait_reset_complete n r.2
      (w.1, w.2.1, Event.reg_read 0 __ENE_ISR r.1 :: w.2.2)

/-- Modelled from the spec: hardware bring-up (the implementation file is
missing).  The proposed pages are `uint8_t`.  An invalid ring geometry or a
reset-complete timeout leaves the device uninitialized; on success the ring
registers and the device's geometry are set, the read cursor starts at
rx_start_page, both transmit slots are free and the init flag is set. -/
def bring_up (tx_start rx_start stop : Nat) (s : State) : Result × State × List Event :=
  match ring_geometry_make (rx_start % 256) (stop % 256) with
  | none => (Result.invalid_geometry, { s with dev := { s.dev with ene_init_flg := 0 } }, [])
  | some g =>
    if tx_start % 256 < g.rx_start then
      let hw1 := write_cr s.hw ENE_CMD_STOP
      let w := wait_reset_complete ENE_RESET_TIMEOUT hw1
      match w.1 with
      | none =>
        (Result.timeout, { dev := { s.dev with ene_init_flg := 0 }, hw := w.2.1 },
          Event.reg_write 0 __ENE_CR ENE_CMD_STOP :: w.2.2)
      | some _ =>
        let hw2 := write_pstart w.2.1 g.rx_start
        let hw3 := write_pstop hw2 g.stop
        let hw4 := write_bnry hw3 g.rx_start
        let hw5 := write_curr hw4 g.rx_start
        let hw6 := write_cr hw5 ENE_CMD_START
        (Result.ok,
          { dev := { s.dev with
              tx_start_page := tx_start % 256, rx_start_page := g.rx_start,
              rx_curr_page := g.rx_start, stop_page := g.stop,
              tx1 := 0, tx2 := 0, txing := 0,
              rx_handling := false, rx_overrun := false, ene_init_flg := 1 },
            hw := hw6 },
          Event.reg_write 0 __ENE_CR ENE_CMD_STOP :: w.2.2 ++
            [Event.reg_write 0 __ENE_PSTART g.rx_start,
             Event.reg_write 0 __ENE_PSTOP g.stop,
             Event.reg_write 0 __ENE_BNRY g.rx_start,
             Event.reg_write 1 __ENE_CURR g.rx_start,
             Event.reg_write 0 __ENE_CR ENE_CMD_START])
    else (Result.invalid_geometry, { s with dev := { s.dev with ene_init_flg := 0 } }, [])

/-- Modelled from the spec: overrun recovery of section 4.3 (the
implementation file is missing): set rx_overrun; stop the controller; save
whether a transmit was in flight; bounded wait for reset-complete (a timeout
is reported and clears the init flag); clear the overrun status; put the
boundary and current-page pointers back to rx_start_page; resume the
controller, re-arming the transmission if one was in flight and the status
shows it did not complete; clear rx_overrun. -/
def overrun_recovery (s : State) : Result × State × List Event :=
  if s.dev.ene_init_flg = 0 then (Result.not_initialized, s, [])
  else
    let dev1 := { s.dev with rx_overrun := true }
    let hw1 := write_cr s.hw ENE_CMD_STOP
    let tx_in_flight := decide (s.dev.txing ≠ 0)
    let w := wait_reset_complete ENE_RESET_TIMEOUT hw1
    match w.1 with
    | none =>
      (Result.timeout, { dev := { dev1 with ene_init_flg := 0 }, hw := w.2.1 },
        Event.reg_write 0 __ENE_CR ENE_CMD_STOP :: w.2.2)
    | some v =>
      let hw2 := write_isr w.2.1 __ENE_ISR_OVW
      let hw3 := write_bnry hw2 s.dev.rx_start_page
      let hw4 := write_curr hw3 s.dev.rx_start_page
      let hw5 := write_cr hw4 ENE_CMD_START
      let resend := tx_in_flight && decide (v &&& (__ENE_ISR_PTX ||| __ENE_ISR_TXE) = 0)
      let dev2 := { dev1 with rx_curr_page := s.dev.rx_start_page, rx_overrun := false }
      let tr := Event.reg_write 0 __ENE_CR ENE_CMD_STOP :: w.2.2 ++
            [Event.reg_write 0 __ENE_ISR __ENE_ISR_OVW,
             Event.reg_write 0 __ENE_BNRY s.dev.rx_start_page,
             Event.reg_write 1 __ENE_CURR s.dev.rx_start_page,
             Event.reg_write 0 __ENE_CR ENE_CMD_START]
      if resend then
        (Result.ok, { dev := dev2, hw := write_cr hw5 ENE_CMD_TXP },
          tr ++ [Event.reg_write 0 __ENE_CR ENE_CMD_TXP])
      else (Result.ok, { dev := dev2, hw := hw5 }, tr)

/-- Modelled from the spec: the loop of receive step 2 (the implementation
file is missing).  Frames are unread while the current-page register differs
from the read cursor rx_curr_page, the mirror of the boundary pointer.  While
that holds: read the header at rx_curr_page; a header that fails validation aborts
the loop and runs overrun recovery; otherwise copy `len - header-size` bytes
from just past the header, hand them to the network interface, move
rx_curr_page to next_page (ring-wrapped) and write the boundary pointer.
`none` means the iteration bound `fuel` was used up. -/
def rx_loop : Nat → State → Option (Result × State × List Event)
  | 0, _ => none
  | fuel + 1, s =>
    let curr := read_curr s.hw
    if curr = s.dev.rx_curr_page then
      some (Result.ok, s, [Event.reg_read 1 __ENE_CURR curr])
    else
      let a := s.dev.rx_curr_page * ENE_PAGE_SIZE
      let h := read_hdr s.hw s.dev.rx_curr_page
      if hdr_valid s.dev h then
        let data := rdma_read s.hw (a + ENE_HDR_SIZE) (h.len - ENE_HDR_SIZE)
        let np := ring_wrap (dev_ring s.dev) h.next_page
        let s1 : State :=
          { dev := { s.dev with rx_curr_page := np }, hw := write_bnry s.hw np }
        match rx_loop fuel s1 with
        | none => none
        | some (r, s2, tr) =>
          some (r, s2,
            [Event.reg_read 1 __ENE_CURR curr,
             Event.rdma_read a ENE_HDR_SIZE,
             Event.rdma_read (a + ENE_HDR_SIZE) (h.len - ENE_HDR_SIZE),
             Event.on_frame_received data,
             Event.reg_write 0 __ENE_BNRY np] ++ tr)
      else
        let rcv := overrun_recovery s
        some (rcv.1, rcv.2.1,
          [Event.reg_read 1 __ENE_CURR curr, Event.rdma_read a ENE_HDR_SIZE] ++ rcv.2.2)

/-- Modelled from the spec: the receive engine of section 4.3 (the
implementation file is missing): fail fast when the device is not initialized;
return at once when rx_handling is set; otherwise set rx_handling, run the
loop, clear rx_handling. -/
def rx_drain (fuel : Nat) (s : State) : Option (Result × State × List Event) :=
  if s.dev.ene_init_flg = 0 then some (Result.not_initialized, s, [])
  else if s.dev.rx_handling then some (Result.ok, s, [])
  else
    match rx_loop fuel { s with dev := { s.dev with rx_handling := true } } with
    | none => none
    | some (r, s1, tr) =>
      some (r, { s1 with dev := { s1.dev with rx_handling := false } }, tr)

/-- Modelled from the spec: value of the selector `txing` when no slot is
transmitting (the implementation file is missing); slot 1 and slot 2 are the
values 1 and 2. -/
def ENE_TXING_NONE : Nat := 0

/-- Modelled from the spec: first buffer page of transmit slot `slot`, 1 or 2
(the implementation file is missing); the slots follow each other from
tx_start_page. -/
def tx_slot_page (dev : awbl_ne2000_dev) (slot : Nat) : Nat :=
  if slot = 1 then dev.tx_start_page else dev.tx_start_page + ENE_TX_SLOT_PAGES

/-- Modelled from the spec: length field of transmit slot `slot` (the
implementation file is missing): `tx1` for slot 1, `tx2` for slot 2. -/
def tx_slot_len (dev : awbl_ne2000_dev) (slot : Nat) : Nat :=
  if slot = 1 then dev.tx1 else dev.tx2

/-- Modelled from the spec: store `len` in the `uint16_t` length field of slot
`slot` (the implementation file is missing). -/
def tx_set_len (dev : awbl_ne2000_dev) (slot len : Nat) : awbl_ne2000_dev :=
  if slot = 1 then { dev with tx1 := len % 65536 } else { dev with tx2 := len % 65536 }

/-- Modelled from the spec: the slot that is not `slot` (the implementation
file is missing). -/
def tx_other (slot : Nat) : Nat := if slot = 1 then 2 else 1

/-- Modelled from the spec: a slot is free when it holds no frame and is not
the transmitting one (the implementation file is missing). -/
def tx_slot_free (dev : awbl_ne2000_dev) (slot : Nat) : Bool :=
  decide (tx_slot_len dev slot = 0) && decide (dev.txing ≠ slot)

/-- Modelled from the spec: slot choice of transmit step 1 (the implementation
file is missing): slot 1 when free, else slot 2 when free, else 0 for "both
occupied". -/
def tx_pick_slot (dev : awbl_ne2000_dev) : Nat :=
  if tx_slot_free dev 1 then 1 else if tx_slot_free dev 2 then 2 else 0

/-- Modelled from the spec: the trigger sequence of transmit step 3 (the
implementation file is missing): write the start page and the byte count of
the slot, set the initiate-transmission command bit, mark the slot as the
transmitting one. -/
def tx_trigger (s : State) (slot : Nat) : State × List Event :=
  let page := tx_slot_page s.dev slot
  let len := tx_slot_len s.dev slot
  let hw1 := write_tpsr s.hw page
  let hw2 := write_tbcr0 hw1 (len % 256)
  let hw3 := write_tbcr1 hw2 (len / 256)
  let hw4 := write_cr hw3 ENE_CMD_TXP
  ({ dev := { s.dev with txing := slot }, hw := hw4 },
    [Event.reg_write 0 __ENE_TPSR page,
     Event.reg_write 0 __ENE_TBCR0 (len % 256),
     Event.reg_write 0 __ENE_TBCR1 (len / 256),
     Event.reg_write 0 __ENE_CR ENE_CMD_TXP])

/-- Modelled from the spec: `transmit(frame_bytes)` of section 4.4 (the
implementation file is missing): fail fast when not initialized; pick a free
slot, slot 1 first, or report device busy at once; copy the frame into the
slot by remote DMA and record its length; trigger the transmission when the
other slot is not transmitting, else leave the frame queued. -/
def transmit (frame : List Nat) (s : State) : Result × State × List Event :=
  if s.dev.ene_init_flg = 0 then (Result.not_initialized, s, [])
  else
    let slot := tx_pick_slot s.dev
    if slot = 0 then (Result.busy, s, [])
    else
      let addr := tx_slot_page s.dev slot * ENE_PAGE_SIZE
      let s1 : State :=
        { dev := tx_set_len s.dev slot frame.length, hw := rdma_write s.hw addr frame }
      if s1.dev.txing = tx_other slot then
        (Result.ok, s1, [Event.rdma_write addr frame])
      else
        let t := tx_trigger s1 slot
        (Result.ok, t.1, Event.rdma_write addr frame :: t.2)

/-- Modelled from the spec: classification of a TX status byte (the
implementation file is missing): excess collisions, FIFO underrun and carrier
loss are send failures; a collision alone is not. -/
def tx_failed (tsr : Nat) : Bool :=
  decide (tsr &&& (__ENE_TSR_ABT ||| __ENE_TSR_FU ||| __ENE_TSR_CRS) ≠ 0)

/-- Modelled from the spec: the transmit completion path of section 4.4 (the
implementation file is missing): read the TX status register and report the
result for the transmitting slot; mark that slot free; when the other slot is
queued (nonzero length, not marked transmitting) start it with the trigger
sequence. -/
def tx_complete (s : State) : Result × State × List Event :=
  if s.dev.ene_init_flg = 0 then (Result.not_initialized, s, [])
  else
    let tsr := read_tsr s.hw
    let slot := s.dev.txing
    if slot = 1 ∨ slot = 2 then
      let dev1 := { tx_set_len s.dev slot 0 with txing := ENE_TXING_NONE }
      let s1 : State := { dev := dev1, hw := s.hw }
      let other := tx_other slot
      let head := [Event.reg_read 0 __ENE_TSR tsr, Event.on_send_complete slot (!tx_failed tsr)]
      if tx_slot_len dev1 other ≠ 0 ∧ dev1.txing ≠ other then
        let t := tx_trigger s1 other
        (Result.ok, t.1, head ++ t.2)
      else (Result.ok, s1, head)
    else (Result.ok, s, [Event.reg_read 0 __ENE_TSR tsr])

/-- Modelled from the spec: a handler of the dispatcher (the implementation
file is missing); `none` when an iteration bound was used up. -/
abbrev Handler := State → Option (State × List Event)

/-- Modelled from the spec: the handlers of dispatcher step 3 in their fixed
priority order (the implementation file is missing): reset-complete re-runs
bring-up with the device's geometry, overrun runs overrun recovery,
receive-error and packet-received run the receive engine, transmit-error and
packet-sent run the completion path, remote-DMA-complete and counter-overflow
are bookkeeping without effect on the device. -/
def isr_handlers (fuel : Nat) : List (Nat × Handler) :=
  [ (__ENE_ISR_RST, fun s =>
      let r := bring_up s.dev.tx_start_page s.dev.rx_start_page s.dev.stop_page s
      some (r.2.1, r.2.2)),
    (__ENE_ISR_OVW, fun s => let r := overrun_recovery s; some (r.2.1, r.2.2)),
    (__ENE_ISR_RXE, fun s => (rx_drain fuel s).map (fun r => (r.2.1, r.2.2))),
    (__ENE_ISR_PRX, fun s => (rx_drain fuel s).map (fun r => (r.2.1, r.2.2))),
    (__ENE_ISR_TXE, fun s => let r := tx_complete s; some (r.2.1, r.2.2)),
    (__ENE_ISR_PTX, fun s => let r := tx_complete s; some (r.2.1, r.2.2)),
    (__ENE_ISR_RDC, fun s => some (s, [])),
    (__ENE_ISR_CNT, fun s => some (s, [])) ]

/-- Modelled from the spec: dispatcher step 3 (the implementation file is
missing): run, in order, the handlers whose bit is set in the snapshot. -/
def run_handlers (snap : Nat) : List (Nat × Handler) → State → Option (State × List Event)
  | [], s => some (s, [])
  | (m, h) :: rest, s =>
    if snap &&& m ≠ 0 then
      match h s with
      | none => none
      | some (s1, t1) =>
        match run_handlers snap rest s1 with
        | none => none
        | some (s2, t2) => some (s2, t1 ++ t2)
    else run_handlers snap rest s

/-- Modelled from the spec: the interrupt dispatcher of section 4.5 (the
implementation file is missing): fail fast when not initialized; read the
interrupt status register once and keep the snapshot; run the handlers of the
set bits in priority order; write the snapshot back to the interrupt status
register. -/
def isr_dispatch (fuel : Nat) (s : State) : Option (Result × State × List Event) :=
  if s.dev.ene_init_flg = 0 then some (Result.not_initialized, s, [])
  else
    let r := read_isr s.hw
    let snap := r.1
    match run_handlers snap (isr_handlers fuel) { s with hw := r.2 } with
    | none => none
    | some (s1, tr) =>
      some (Result.ok, { s1 with hw := write_isr s1.hw snap },
        Event.reg_read 0 __ENE_ISR snap :: tr ++ [Event.reg_write 0 __ENE_ISR snap])



/-! ## Invariants and reachability -/

/-- Ring geometry predicate of the data model:
`tx_start_page < rx_start_page < stop_page` and
`rx_start_page ≤ rx_curr_page < stop_page`. -/
def ring_inv (d : awbl_ne2000_dev) : Prop :=
  d.tx_start_page < d.rx_start_page ∧ d.rx_start_page < d.stop_page ∧
  d.rx_start_page ≤ d.rx_curr_page ∧ d.rx_curr_page < d.stop_page

instance (d : awbl_ne2000_dev) : Decidable (ring_inv d) := by
  unfold ring_inv
  infer_instance

/-- The selector `txing` holds one of its three values: none, slot 1, slot 2. -/
def txing_inv (d : awbl_ne2000_dev) : Prop :=
  d.txing = ENE_TXING_NONE ∨ d.txing = 1 ∨ d.txing = 2

instance (d : awbl_ne2000_dev) : Decidable (txing_inv d) := by
  unfold txing_inv
  infer_instance

/-- Slot `slot` is the one marked transmitting. -/
def slot_transmitting (d : awbl_ne2000_dev) (slot : Nat) : Prop := d.txing = slot

/-- Both invariants carry over from device state `d` to device state `e`. -/
def dev_step (d e : awbl_ne2000_dev) : Prop :=
  (ring_inv d → ring_inv e) ∧ (txing_inv d → txing_inv e)

/-- Driver operations on a device, and a change of the hardware state by the
controller itself (frames arriving, status bits changing). -/
inductive Op where
  | bring_up (tx_start rx_start stop : Nat)
  | rx_drain (fuel : Nat)
  | overrun_recovery
  | transmit (frame : List Nat)
  | tx_complete
  | isr_dispatch (fuel : Nat)
  | hw_event (hw : Hw)

/-- Run one operation; `none` when an iteration bound was used up. -/
def op_run : Op → State → Option (State × List Event)
  | Op.bring_up a b c, s => let r := bring_up a b c s; some (r.2.1, r.2.2)
  | Op.rx_drain fuel, s => (rx_drain fuel s).map (fun r => (r.2.1, r.2.2))
  | Op.overrun_recovery, s => let r := overrun_recovery s; some (r.2.1, r.2.2)
  | Op.transmit frame, s => let r := transmit frame s; some (r.2.1, r.2.2)
  | Op.tx_complete, s => let r := tx_complete s; some (r.2.1, r.2.2)
  | Op.isr_dispatch fuel, s => (isr_dispatch fuel s).map (fun r => (r.2.1, r.2.2))
  | Op.hw_event hw, s => some ({ s with hw := hw }, [])

/-- States of a device instance reached from a successful bring-up by any
sequence of operations and hardware changes. -/
inductive Reachable : State → Prop where
  | boot (s0 : State) (a b c : Nat) :
      (bring_up a b c s0).1 = Result.ok → Reachable (bring_up a b c s0).2.1
  | step (s : State) (op : Op) (s' : State) (tr : List Event) :
      Reachable s → op_run op s = some (s', tr) → Reachable s'

/-! ## Trace projections and ring contents -/

/-- Payloads handed to the frame-received callback, in order. -/
def deliveries (tr : List Event) : List (List Nat) :=
  tr.filterMap (fun e => match e with
    | Event.on_frame_received d => some d
    | _ => none)

/-- Values written to register `idx` of page `page`, in order. -/
def reg_writes (page idx : Nat) (tr : List Event) : List Nat :=
  tr.filterMap (fun e => match e with
    | Event.reg_write p i v => if p = page ∧ i = idx then some v else none
    | _ => none)

/-- Values read from register `idx` of page `page`, in order. -/
def reg_reads (page idx : Nat) (tr : List Event) : List Nat :=
  tr.filterMap (fun e => match e with
    | Event.reg_read p i v => if p = page ∧ i = idx then some v else none
    | _ => none)

/-- Values written to the boundary pointer register, in order. -/
def bnry_writes (tr : List Event) : List Nat := reg_writes 0 __ENE_BNRY tr

/-- Values read from the interrupt status register, in order. -/
def isr_reads (tr : List Event) : List Nat := reg_reads 0 __ENE_ISR tr

/-- Values written to the interrupt status register, in order. -/
def isr_writes (tr : List Event) : List Nat := reg_writes 0 __ENE_ISR tr

/-- Values written to the command register, in order. -/
def cr_writes (tr : List Event) : List Nat := reg_writes 0 __ENE_CR tr

/-- Start addresses and byte counts of the remote-DMA reads, in order. -/
def rdma_reads (tr : List Event) : List (Nat × Nat) :=
  tr.filterMap (fun e => match e with
    | Event.rdma_read a n => some (a, n)
    | _ => none)

/-- The event is a register write or a remote-DMA write or a callback. -/
def is_output : Event → Bool
  | Event.reg_read _ _ _ => false
  | Event.rdma_read _ _ => false
  | _ => true

/-- The `n` valid frames stored back to back in the ring from page `p` up to
the page held by the current-page register: each frame's page and header.
`none` when the ring does not hold exactly such a chain. -/
def rx_chain (s : State) : Nat → Nat → Option (List (Nat × __ene_rxpkt_hdr))
  | 0, p => if read_curr s.hw = p then some [] else none
  | n + 1, p =>
    if read_curr s.hw = p then none
    else if hdr_valid s.dev (read_hdr s.hw p) then
      (rx_chain s n (read_hdr s.hw p).next_page).map (fun l => (p, read_hdr s.hw p) :: l)
    else none

/-- Payload of the frame with header `f.2` stored at ring page `f.1`. -/
def rx_payload (hw : Hw) (f : Nat × __ene_rxpkt_hdr) : List Nat :=
  rdma_read hw (f.1 * ENE_PAGE_SIZE + ENE_HDR_SIZE) (f.2.len - ENE_HDR_SIZE)

/-- Events of one iteration of the receive loop on the frame `f`. -/
def rx_frame_events (hw : Hw) (f : Nat × __ene_rxpkt_hdr) : List Event :=
  [Event.reg_read 1 __ENE_CURR (read_curr hw),
   Event.rdma_read (f.1 * ENE_PAGE_SIZE) ENE_HDR_SIZE,
   Event.rdma_read (f.1 * ENE_PAGE_SIZE + ENE_HDR_SIZE) (f.2.len - ENE_HDR_SIZE),
   Event.on_frame_received (rx_payload hw f),
   Event.reg_write 0 __ENE_BNRY f.2.next_page]

/-- Events of the receive loop on the chain of frames `fs`. -/
def rx_chain_events (hw : Hw) : List (Nat × __ene_rxpkt_hdr) → List Event
  | [] => [Event.reg_read 1 __ENE_CURR (read_curr hw)]
  | f :: fs => rx_frame_events hw f ++ rx_chain_events hw fs

/-! ## Concrete device states -/

/-- A device instance before bring-up: every field zero. -/
def dev_blank : awbl_ne2000_dev :=
  { tx_start_page := 0, rx_start_page := 0, rx_curr_page := 0, stop_page := 0,
    tx1 := 0, tx2 := 0, txing := 0, rx_handling := false, rx_overrun := false,
    int_mask := 0, phy_mode := 0, phy_stat := 0, reg_offset := [], ene_init_flg := 0 }

/-- A controller with every register and memory byte zero that indicates
reset-complete on the first poll. -/
def hw_blank : Hw :=
  { cr := 0, isr := 0, bnry := 0, curr := 0, tsr := 0, pstart := 0, pstop := 0,
    tpsr := 0, tbcr0 := 0, tbcr1 := 0, rst_delay := 0, mem := fun _ => 0 }

/-- The blank device on the blank controller. -/
def state_blank : State := { dev := dev_blank, hw := hw_blank }

/-- The device after bring-up with tx_start_page 0x3A, rx_start_page 0x46 and
stop_page 0x60. -/
def state_booted : State := (bring_up 0x3A 0x46 0x60 state_blank).2.1

/-- Ring memory holding three frames of 64, 1514 and 60 payload bytes back to
back from page 0x46: headers at pages 0x46, 0x47 and 0x4D, next free page
0x4E. -/
def mem_three_frames : Nat → Nat := fun a =>
  if a = 0x4600 then 0x01 else if a = 0x4601 then 0x47
  else if a = 0x4602 then 0x44 else if a = 0x4603 then 0x00
  else if a = 0x4700 then 0x01 else if a = 0x4701 then 0x4D
  else if a = 0x4702 then 0xEE else if a = 0x4703 then 0x05
  else if a = 0x4D00 then 0x21 else if a = 0x4D01 then 0x4E
  else if a = 0x4D02 then 0x40 else if a = 0x4D03 then 0x00
  else a % 251

/-- The booted device after the controller stored the three frames. -/
def state_three_frames : State :=
  { dev := state_booted.dev,
    hw := { state_booted.hw with curr := 0x4E, mem := mem_three_frames } }

/-- The three frames of `state_three_frames`: page and header of each. -/
def three_frames : List (Nat × __ene_rxpkt_hdr) :=
  [(0x46, { status := 0x01, next_page := 0x47, len := 68 }),
   (0x47, { status := 0x01, next_page := 0x4D, len := 1518 }),
   (0x4D, { status := 0x21, next_page := 0x4E, len := 64 })]

/-- A header that fails the validation of receive step 2b: next_page outside
`[rx_start_page, stop_page)`, or the received-OK status bit missing, or the
length outside `[header-size, ring-capacity]`. -/
def hdr_corrupt (d : awbl_ne2000_dev) (h : __ene_rxpkt_hdr) : Prop :=
  (h.next_page < d.rx_start_page ∨ d.stop_page ≤ h.next_page) ∨
  h.status &&& __ENE_RSR_PRX = 0 ∨
  (h.len < ENE_HDR_SIZE ∨ (d.stop_page - d.rx_start_page) * ENE_PAGE_SIZE < h.len)

instance (d : awbl_ne2000_dev) (h : __ene_rxpkt_hdr) : Decidable (hdr_corrupt d h) := by
  unfold hdr_corrupt
  infer_instance

/-- Ring memory whose first header, at page 0x46, names page 0x99 as the next
page. -/
def mem_corrupt : Nat → Nat := fun a =>
  if a = 0x4600 then 0x01 else if a = 0x4601 then 0x99
  else if a = 0x4602 then 0x44 else 0

/-- The booted device with one corrupted frame header in the ring. -/
def state_corrupt : State :=
  { dev := state_booted.dev,
    hw := { state_booted.hw with curr := 0x47, mem := mem_corrupt } }

/-- Slots and results reported through the send-complete callback, in order. -/
def send_completions (tr : List Event) : List (Nat × Bool) :=
  tr.filterMap (fun e => match e with
    | Event.on_send_complete slot ok => some (slot, ok)
    | _ => none)

/-- The booted device with the overrun bit pending in the interrupt status
register. -/
def state_overrun : State :=
  { dev := state_booted.dev, hw := { state_booted.hw with isr := __ENE_ISR_OVW } }

/-- The device with one corrupted frame header in the ring and the
packet-received bit pending. -/
def state_corrupt_prx : State :=
  { dev := state_corrupt.dev, hw := { state_corrupt.hw with isr := __ENE_ISR_PRX } }

/-- The device transmitting from slot 1 with a TX status of transmitted plus
collision. -/
def state_tx_collision : State :=
  { dev := (transmit [1, 2, 3] state_booted).2.1.dev,
    hw := { (transmit [1, 2, 3] state_booted).2.1.hw with
            tsr := __ENE_TSR_PTX ||| __ENE_TSR_COL } }

/-- Command register: page select field. -/
def __ENE_CR_PAGESEL : Nat := 0xC0
/-- Command register: select page 2. -/
def __ENE_PAGESEL_2 : Nat := 0x80
/-- Command register: reserved page select code. -/
def __ENE_PAGESEL_3 : Nat := 0xC0

/-- Device memory as seen from the bus: a byte at every address. -/
abbrev DevMem := Nat → Nat

/-- Macro `__ENE_SHIFT(offset)`: `p_this->reg_offset[offset]`, an element of
the `uint32_t` offset array; `none` for an index outside the array. -/
def __ENE_SHIFT (p_this : awbl_ne2000_dev) (offset : Nat) : Option Nat :=
  p_this.reg_offset[offset]?.map (fun o => o % 2 ^ 32)

/-- Address expression of the four access macros,
`(base) + __ENE_SHIFT(offset)`, in `uint32_t` arithmetic. -/
def ene_reg_addr (p_this : awbl_ne2000_dev) (base offset : Nat) : Option Nat :=
  (__ENE_SHIFT p_this offset).map (fun o => (base + o) % 2 ^ 32)

/-- Macro `__ENEREG_BYTE_READ(base, offset)`: the `uint8_t` at
`(base) + __ENE_SHIFT(offset)`. -/
def __ENEREG_BYTE_READ (m : DevMem) (p_this : awbl_ne2000_dev) (base offset : Nat) :
    Option Nat :=
  (ene_reg_addr p_this base offset).map (fun a => m a % 256)

/-- Macro `__ENEREG_SHORT_READ(base, offset)`: the little-endian `uint16_t`
at `(base) + __ENE_SHIFT(offset)`. -/
def __ENEREG_SHORT_READ (m : DevMem) (p_this : awbl_ne2000_dev) (base offset : Nat) :
    Option Nat :=
  (ene_reg_addr p_this base offset).map (fun a => m a % 256 + 256 * (m (a + 1) % 256))

/-- Macro `__ENEREG_BYTE_WRITE(base, offset, data)`: store `(uint8_t)(data)`
at `(base) + __ENE_SHIFT(offset)`. -/
def __ENEREG_BYTE_WRITE (m : DevMem) (p_this : awbl_ne2000_dev) (base offset data : Nat) :
    Option DevMem :=
  (ene_reg_addr p_this base offset).map (fun a => fun x => if x = a then data % 256 else m x)

/-- Macro `__ENEREG_SHORT_WRITE(base, offset, data)`: store `(uint16_t)(data)`
little-endian at `(base) + __ENE_SHIFT(offset)`. -/
def __ENEREG_SHORT_WRITE (m : DevMem) (p_this : awbl_ne2000_dev) (base offset data : Nat) :
    Option DevMem :=
  (ene_reg_addr p_this base offset).map (fun a => fun x =>
    if x = a then data % 256 else if x = a + 1 then data / 256 % 256 else m x)

/-- Sizes in bytes of the fields of `struct __ene_rxpkt_hdr` in declaration
order: `uint8_t status`, `uint8_t next_page`, `uint16_t len`. -/
def __ene_rxpkt_hdr_sizes : List Nat := [1, 1, 2]

/-- Round `off` up to a multiple of `a`. -/
def c_align (off a : Nat) : Nat := (off + a - 1) / a * a

/-- Offsets of structure fields laid out in order from `off`, each scalar
field aligned to its own size. -/
def c_offsets : Nat → List Nat → List Nat
  | _, [] => []
  | off, sz :: rest => c_align off sz :: c_offsets (c_align off sz + sz) rest

/-- End of the last field of a structure laid out from `off`. -/
def c_end : Nat → List Nat → Nat
  | off, [] => off
  | off, sz :: rest => c_end (c_align off sz + sz) rest

/-- Size of a structure of scalar fields: the end of the last field rounded
up to the largest field alignment. -/
def c_sizeof (sizes : List Nat) : Nat := c_align (c_end 0 sizes) (sizes.foldl max 1)

/-- A device whose offset table maps logical register `i` to `4 * i`. -/
def dev_word_bus : awbl_ne2000_dev :=
  { dev_blank with reg_offset := (List.range 0x20).map (fun i => 4 * i) }

end NE2000

/-! ## I2C interface (aw_i2c.h) -/

namespace AW_I2C

/-- Transfer flag: 7-bit device address (default). -/
def AW_I2C_M_7BIT : Nat := 0x0000
/-- Transfer flag: 10-bit device address. -/
def AW_I2C_M_10BIT : Nat := 0x0001
/-- Transfer flag: write (default). -/
def AW_I2C_M_WR : Nat := 0x0000
/-- Transfer flag: read. -/
def AW_I2C_M_RD : Nat := 0x0002
/-- Transfer flag: do not send a start condition. -/
def AW_I2C_M_NOSTART : Nat := 0x0004
/-- Transfer flag: reverse the read/write bit. -/
def AW_I2C_M_REV_DIR_ADDR : Nat := 0x0008
/-- Transfer flag: not supported yet. -/
def AW_I2C_M_RECV_LEN : Nat := 0x0010
/-- Transfer flag: ignore every missing acknowledge. -/
def AW_I2C_M_IGNORE_NAK : Nat := 0x0020
/-- Transfer flag: no acknowledge while reading. -/
def AW_I2C_M_NO_RD_ACK : Nat := 0x0040
/-- Mask of the transfer control flags. -/
def AW_I2C_M_MASK : Nat := 0x00FF

/-- Device flag: 7-bit address mode (default). -/
def AW_I2C_ADDR_7BIT : Nat := AW_I2C_M_7BIT
/-- Device flag: 10-bit address mode. -/
def AW_I2C_ADDR_10BIT : Nat := AW_I2C_M_10BIT
/-- Device flag: ignore a missing acknowledge of the device. -/
def AW_I2C_IGNORE_NAK : Nat := AW_I2C_M_IGNORE_NAK
/-- Device flag: sub-address sent high byte first (default). -/
def AW_I2C_SUBADDR_MSB_FIRST : Nat := 0x0000
/-- Device flag: sub-address sent low byte first. -/
def AW_I2C_SUBADDR_LSB_FIRST : Nat := 0x0100
/-- Device flag: no sub-address (default). -/
def AW_I2C_SUBADDR_NONE : Nat := 0x0000
/-- Device flag: sub-address of 1 byte. -/
def AW_I2C_SUBADDR_1BYTE : Nat := 0x1000
/-- Device flag: sub-address of 2 bytes. -/
def AW_I2C_SUBADDR_2BYTE : Nat := 0x2000

/-- Macro `AW_I2C_SUBADDR_LEN_GET(flags)`: `(((flags) & 0xF000) >> 12)`. -/
def AW_I2C_SUBADDR_LEN_GET (flags : Nat) : Nat := (flags &&& 0xF000) >>> 12

/-- Structure `aw_i2c_device_t`: `uint8_t busid`, `uint16_t addr`,
`uint16_t flags`. -/
structure aw_i2c_device where
  busid : Nat
  addr : Nat
  flags : Nat
  deriving DecidableEq, Repr

/-- Structure `aw_i2c_transfer_t`: `uint16_t addr`, `uint16_t flags`,
`uint8_t *p_buf` (an address), `size_t nbytes` (32 bits on the target). -/
structure aw_i2c_transfer where
  addr : Nat
  flags : Nat
  p_buf : Nat
  nbytes : Nat
  deriving DecidableEq, Repr

/-- Structure `aw_i2c_message_t`: pointers are addresses, `trans_num` and
`done_num` are `uint16_t`, `status` is an `int`, `ctlrdata` holds two
pointers for the controller. -/
structure aw_i2c_message where
  p_transfers : Nat
  trans_num : Nat
  done_num : Nat
  pfunc_complete : Nat
  p_arg : Nat
  status : Int
  ctlrdata : Nat × Nat
  deriving DecidableEq, Repr

/-- Function `aw_i2c_mkdev`: store `busid`, `addr` and `flags` in `*p_dev`;
each field keeps the width of its C type. -/
def aw_i2c_mkdev (p_dev : aw_i2c_device) (busid addr flags : Nat) : aw_i2c_device :=
  { p_dev with busid := busid % 2 ^ 8, addr := addr % 2 ^ 16, flags := flags % 2 ^ 16 }

/-- Function `aw_i2c_mktrans`: store `addr`, `flags`, `p_buf` and `nbytes`
in `*p_trans`; each field keeps the width of its C type. -/
def aw_i2c_mktrans (p_trans : aw_i2c_transfer) (addr flags p_buf nbytes : Nat) :
    aw_i2c_transfer :=
  { p_trans with
    addr := addr % 2 ^ 16, flags := flags % 2 ^ 16, p_buf := p_buf, nbytes := nbytes % 2 ^ 32 }

/-- Function `aw_i2c_mkmsg`: store the transfers, their number, the callback
and its argument in `*p_msg`, set `done_num` to 0 and `status` to
`-ENOTCONN`.  The value of `ENOTCONN` comes from a header outside the sources
and is a parameter. -/
def aw_i2c_mkmsg (ENOTCONN : Int) (p_msg : aw_i2c_message)
    (p_transfers trans_num pfunc_complete p_arg : Nat) : aw_i2c_message :=
  { p_msg with
    p_transfers := p_transfers, trans_num := trans_num % 2 ^ 16, done_num := 0,
    pfunc_complete := pfunc_complete, p_arg := p_arg, status := -ENOTCONN }

/-- The non-zero transfer control flags of the header, in the header's
order. -/
def aw_i2c_m_flags : List Nat :=
  [AW_I2C_M_10BIT, AW_I2C_M_RD, AW_I2C_M_NOSTART, AW_I2C_M_REV_DIR_ADDR, AW_I2C_M_RECV_LEN,
   AW_I2C_M_IGNORE_NAK, AW_I2C_M_NO_RD_ACK]

/-- The non-zero device attribute flags that are not transfer control flags,
in the header's order. -/
def aw_i2c_dev_only_flags : List Nat :=
  [AW_I2C_SUBADDR_LSB_FIRST, AW_I2C_SUBADDR_1BYTE, AW_I2C_SUBADDR_2BYTE]

end AW_I2C

namespace NE2000

/-! ## PHY and link supervisor (specification section 4.6) -/

/-- Modelled from the spec: the management-bus collaborator of section 6 (not
part of the sources): `mii_read(phy_addr, reg) -> value | error` and
`mii_write(phy_addr, reg, value) -> ok | error`; an error stands for the
collaborator's timeout. -/
structure MiiBus where
  mii_read : Nat → Nat → Option Nat
  mii_write : Nat → Nat → Nat → Bool

/-- Modelled from the spec: one transaction on the management bus (the
implementation file is missing). -/
inductive MiiEvent where
  | read (phy_addr reg : Nat)
  | write (phy_addr reg val : Nat)
  deriving DecidableEq, Repr

/-- Modelled from the spec: PHY register read of section 4.6 (the
implementation file is missing): fail fast when not initialized; one bus
transaction; a failed transaction is reported as a timeout and changes
nothing. -/
def phy_read (bus : MiiBus) (phy_addr reg : Nat) (s : State) :
    Result × Option Nat × State × List MiiEvent :=
  if s.dev.ene_init_flg = 0 then (Result.not_initialized, none, s, [])
  else
    match bus.mii_read phy_addr reg with
    | none => (Result.timeout, none, s, [MiiEvent.read phy_addr reg])
    | some v => (Result.ok, some (v % 65536), s, [MiiEvent.read phy_addr reg])

/-- Modelled from the spec: PHY register write of section 4.6 (the
implementation file is missing): fail fast when not initialized; one bus
transaction; a failed transaction is reported as a timeout. -/
def phy_write (bus : MiiBus) (phy_addr reg val : Nat) (s : State) :
    Result × State × List MiiEvent :=
  if s.dev.ene_init_flg = 0 then (Result.not_initialized, s, [])
  else if bus.mii_write phy_addr reg (val % 65536) then
    (Result.ok, s, [MiiEvent.write phy_addr reg (val % 65536)])
  else (Result.timeout, s, [MiiEvent.write phy_addr reg (val % 65536)])

/-- Modelled from the spec: the explicit link poll of section 4.6 (the
implementation file is missing): fail fast when not initialized; read the
PHY's mode and status registers over the bus (which registers is the PHY's
business and a parameter here); when a transaction fails report it and keep
the cached values; otherwise store both in `phy_mode` and `phy_stat`. -/
def phy_link_poll (bus : MiiBus) (phy_addr mode_reg stat_reg : Nat) (s : State) :
    Result × State × List MiiEvent :=
  if s.dev.ene_init_flg = 0 then (Result.not_initialized, s, [])
  else
    match bus.mii_read phy_addr mode_reg with
    | none => (Result.timeout, s, [MiiEvent.read phy_addr mode_reg])
    | some m =>
      match bus.mii_read phy_addr stat_reg with
      | none =>
        (Result.timeout, s, [MiiEvent.read phy_addr mode_reg, MiiEvent.read phy_addr stat_reg])
      | some st =>
        (Result.ok,
          { s with dev := { s.dev with phy_mode := m % 65536, phy_stat := st % 65536 } },
          [MiiEvent.read phy_addr mode_reg, MiiEvent.read phy_addr stat_reg])

/-- A management bus on which every transaction times out. -/
def bus_dead : MiiBus := { mii_read := fun _ _ => none, mii_write := fun _ _ _ => false }

/-- A management bus whose PHY answers 0x3100 for register 0 and 0x782D for
every other register. -/
def bus_live : MiiBus :=
  { mii_read := fun _ reg => if reg = 0 then some 0x3100 else some 0x782D,
    mii_write := fun _ _ _ => true }

/-- The booted device after a successful link poll on the live bus. -/
def state_linked : State := (phy_link_poll bus_live 1 0 1 state_booted).2.1

/-- The booted device on a controller that needs more polls than the bound
before it indicates reset-complete. -/
def state_slow_reset : State :=
  { dev := state_booted.dev,
    hw := { state_booted.hw with rst_delay := ENE_RESET_TIMEOUT } }

/-! ## Frame arrival and loopback in the controller -/

/-- TX configuration register: loopback control field. -/
def __ENE_TCR_LB : Nat := 0x06
/-- Loopback control: normal operation, loopback off. -/
def __ENE_LOOP_OFF : Nat := 0x00
/-- Loopback control: NIC/MAC loopback. -/
def __ENE_LOOP_NIC : Nat := 0x02

/-- Number of pages that `n` bytes occupy. -/
def ene_pages (n : Nat) : Nat := (n + (ENE_PAGE_SIZE - 1)) / ENE_PAGE_SIZE

/-- Modelled from the spec: ring page `k` pages after page `p` (hardware
behaviour, not part of the sources); the ring is circular. -/
def hw_page_after (hw : Hw) (p k : Nat) : Nat :=
  ring_iter (hw.pstart % 256) (hw.pstop % 256) p k

/-- Modelled from the spec: buffer memory after the controller stored `bytes`
from address `a` on, following the circular ring (hardware behaviour, not
part of the sources). -/
def hw_store (hw : Hw) (a : Nat) (bytes : List Nat) : Nat → Nat := fun x =>
  match (List.range bytes.length).find? (fun i => decide (rdma_addr hw a i = x)) with
  | some i => bytes.getD i 0 % 256
  | none => hw.mem x

/-- Modelled from the spec: number of ring pages the controller may fill
before it would reach the boundary pointer, which it must not cross (hardware
behaviour, not part of the sources); boundary equal to current page means an
empty ring. -/
def hw_room (hw : Hw) : Nat :=
  let size := hw.pstop % 256 - hw.pstart % 256
  let d := (hw.bnry % 256 + size - hw.curr % 256) % size
  if d = 0 then size else d

/-- Modelled from the spec: arrival of a good frame (hardware behaviour, not
part of the sources).  The controller stores the receive header (status
received-OK, next page, header-inclusive length) and then the frame from the
start of the current page on, and moves the current-page register to the
next free page; without room before the boundary pointer it raises the
overrun bit instead. -/
def hw_receive (hw : Hw) (frame : List Nat) : Hw :=
  let total := frame.length + ENE_HDR_SIZE
  if ene_pages total < hw_room hw then
    let next := hw_page_after hw (hw.curr % 256) (ene_pages total)
    { hw with
      mem := hw_store hw (hw.curr % 256 * ENE_PAGE_SIZE)
        ([__ENE_RSR_PRX, next, total % 256, total / 256 % 256] ++ frame),
      curr := next,
      isr := hw.isr ||| __ENE_ISR_PRX }
  else { hw with isr := hw.isr ||| __ENE_ISR_OVW }

/-- Modelled from the spec: the controller carries out a triggered
transmission (hardware behaviour, not part of the sources): it takes the
frame of the programmed byte count from the programmed transmit page, reports
it as sent, and, when the loopback field of the TX configuration value `tcr`
is not `__ENE_LOOP_OFF`, receives that frame itself. -/
def hw_transmit (tcr : Nat) (hw : Hw) : Hw :=
  if hw.cr &&& __ENE_CR_TXP = 0 then hw
  else
    let len := hw.tbcr0 % 256 + 256 * (hw.tbcr1 % 256)
    let frame := (List.range len).map
      (fun i => hw.mem (hw.tpsr % 256 * ENE_PAGE_SIZE + i) % 256)
    let hw1 := { hw with
      cr := hw.cr &&& (0xFF ^^^ __ENE_CR_TXP), tsr := __ENE_TSR_PTX,
      isr := hw.isr ||| __ENE_ISR_PTX }
    if tcr &&& __ENE_TCR_LB = __ENE_LOOP_OFF then hw1 else hw_receive hw1 frame

/-- A frame of 1500 bytes. -/
def frame_1500 : List Nat := (List.range 1500).map (fun i => i % 251)

/-! ## Register map and command register fields (awbl_emac_ne2000.h) -/

/-- Page 0 read register: collision count. -/
def __ENE_NCR : Nat := 0x05
/-- Page 0 read register: current remote DMA address 0. -/
def __ENE_CRDA0 : Nat := 0x08
/-- Page 0 read register: current remote DMA address 1. -/
def __ENE_CRDA1 : Nat := 0x09
/-- Page 0 read register: reserved. -/
def __ENE_RSVD0 : Nat := 0x0A
/-- Page 0 read register: reserved. -/
def __ENE_RSVD1 : Nat := 0x0B
/-- Page 0 read register: RX status register. -/
def __ENE_RSR : Nat := 0x0C
/-- Page 0 read register: frame alignment error counter. -/
def __ENE_CNTR0 : Nat := 0x0D
/-- Page 0 read register: CRC error counter. -/
def __ENE_CNTR1 : Nat := 0x0E
/-- Page 0 read register: missed packet counter. -/
def __ENE_CNTR2 : Nat := 0x0F

/-- Page 0 write register: remote start address 0. -/
def __ENE_RSAR0 : Nat := 0x08
/-- Page 0 write register: remote start address 1. -/
def __ENE_RSAR1 : Nat := 0x09
/-- Page 0 write register: remote byte count 0. -/
def __ENE_RBCR0 : Nat := 0x0A
/-- Page 0 write register: remote byte count 1. -/
def __ENE_RBCR1 : Nat := 0x0B
/-- Page 0 write register: RX configuration register. -/
def __ENE_RCR : Nat := 0x0C
/-- Page 0 write register: TX configuration register. -/
def __ENE_TCR : Nat := 0x0D
/-- Page 0 write register: data configuration register. -/
def __ENE_DCR : Nat := 0x0E
/-- Page 0 write register: interrupt mask register. -/
def __ENE_IMR : Nat := 0x0F

/-- Page 1 register: station address 0. -/
def __ENE_PAR0 : Nat := 0x01
/-- Page 1 register: station address 1. -/
def __ENE_PAR1 : Nat := 0x02
/-- Page 1 register: station address 2. -/
def __ENE_PAR2 : Nat := 0x03
/-- Page 1 register: station address 3. -/
def __ENE_PAR3 : Nat := 0x04
/-- Page 1 register: station address 4. -/
def __ENE_PAR4 : Nat := 0x05
/-- Page 1 register: station address 5. -/
def __ENE_PAR5 : Nat := 0x06
/-- Page 1 register: multicast hash table 0. -/
def __ENE_MAR0 : Nat := 0x08
/-- Page 1 register: multicast hash table 1. -/
def __ENE_MAR1 : Nat := 0x09
/-- Page 1 register: multicast hash table 2. -/
def __ENE_MAR2 : Nat := 0x0A
/-- Page 1 register: multicast hash table 3. -/
def __ENE_MAR3 : Nat := 0x0B
/-- Page 1 register: multicast hash table 4. -/
def __ENE_MAR4 : Nat := 0x0C
/-- Page 1 register: multicast hash table 5. -/
def __ENE_MAR5 : Nat := 0x0D
/-- Page 1 register: multicast hash table 6. -/
def __ENE_MAR6 : Nat := 0x0E
/-- Page 1 register: multicast hash table 7. -/
def __ENE_MAR7 : Nat := 0x0F

/-- Data port offset. -/
def __ENE_IOPORT : Nat := 0x10
/-- Reset port. -/
def __ENE_RESET : Nat := 0x1F

/-- Command register: remote DMA command field. -/
def __ENE_CR_RDMA_CMD : Nat := 0x38
/-- Command register: remote read. -/
def __ENE_RDMA_READ : Nat := 0x08
/-- Command register: remote write. -/
def __ENE_RDMA_WRITE : Nat := 0x10
/-- Command register: send packet. -/
def __ENE_RDMA_SEND : Nat := 0x18

/-- The registers the header defines under "Page 0 registers, read", in the
header's order (the entries the header comments out are not defined). -/
def ene_page0_read_regs : List Nat :=
  [__ENE_CR, __ENE_BNRY, __ENE_TSR, __ENE_NCR, __ENE_ISR, __ENE_CRDA0, __ENE_CRDA1,
   __ENE_RSVD0, __ENE_RSVD1, __ENE_RSR, __ENE_CNTR0, __ENE_CNTR1, __ENE_CNTR2]

/-- The registers the header lists under "Page 0 registers, write", in the
header's order; the boundary pointer and the interrupt status register are
listed there as the registers already defined in the read set. -/
def ene_page0_write_regs : List Nat :=
  [__ENE_PSTART, __ENE_PSTOP, __ENE_BNRY, __ENE_TPSR, __ENE_TBCR0, __ENE_TBCR1, __ENE_ISR,
   __ENE_RSAR0, __ENE_RSAR1, __ENE_RBCR0, __ENE_RBCR1, __ENE_RCR, __ENE_TCR, __ENE_DCR,
   __ENE_IMR]

/-- The registers the header defines under "Page 1 registers, read/write", in
the header's order. -/
def ene_page1_regs : List Nat :=
  [__ENE_PAR0, __ENE_PAR1, __ENE_PAR2, __ENE_PAR3, __ENE_PAR4, __ENE_PAR5, __ENE_CURR,
   __ENE_MAR0, __ENE_MAR1, __ENE_MAR2, __ENE_MAR3, __ENE_MAR4, __ENE_MAR5, __ENE_MAR6,
   __ENE_MAR7]

/-- The interrupt status bits of the header, in the header's order. -/
def ene_isr_masks : List Nat :=
  [__ENE_ISR_PRX, __ENE_ISR_PTX, __ENE_ISR_RXE, __ENE_ISR_TXE, __ENE_ISR_OVW, __ENE_ISR_CNT,
   __ENE_ISR_RDC, __ENE_ISR_RST]

/-- Bitwise OR of a list of masks. -/
def ene_or_all (l : List Nat) : Nat := l.foldr (fun a b => a ||| b) 0

/-- The interrupt sources pending in the status byte `v`: the masks `m` with
`(v AND m) != 0`, the test the dispatcher applies to each source. -/
def ene_isr_sources (v : Nat) : List Nat :=
  ene_isr_masks.filter (fun m => decide (v &&& m ≠ 0))

/-- The field masks of the command register, in the header's order. -/
def ene_cr_fields : List Nat :=
  [__ENE_CR_STOP, __ENE_CR_START, __ENE_CR_TXP, __ENE_CR_RDMA_CMD, __ENE_CR_PAGESEL]

/-- The remote DMA command codes of the command register, in the header's
order. -/
def ene_rdma_cmds : List Nat :=
  [__ENE_RDMA_READ, __ENE_RDMA_WRITE, __ENE_RDMA_SEND, __ENE_RDMA_ABORT]

/-- The page select codes of the command register, in the header's order. -/
def ene_pagesel_codes : List Nat :=
  [__ENE_PAGESEL_0, __ENE_PAGESEL_1, __ENE_PAGESEL_2, __ENE_PAGESEL_3]


/-! ## Invariant preservation -/

theorem dev_step_refl (d : awbl_ne2000_dev) : dev_step d d := ⟨id, id⟩

theorem dev_step_trans {d e f : awbl_ne2000_dev} (h1 : dev_step d e) (h2 : dev_step e f) :
    dev_step d f := ⟨fun h => h2.1 (h1.1 h), fun h => h2.2 (h1.2 h)⟩

theorem ring_geometry_make_some (a b : Nat) (g : ring_geometry)
    (h : ring_geometry_make a b = some g) :
    a < b ∧ g.rx_start = a ∧ g.stop = b ∧ g.length = b - a := by
  unfold ring_geometry_make at h
  split at h
  · simp only [Option.some.injEq] at h
    subst h
    exact ⟨by assumption, rfl, rfl, rfl⟩
  · simp at h

theorem bring_up_dev_step (a b c : Nat) (s : State) :
    dev_step s.dev (bring_up a b c s).2.1.dev := by
  unfold bring_up
  cases hg : ring_geometry_make (b % 256) (c % 256) with
  | none => exact dev_step_refl _
  | some g =>
    obtain ⟨h1, h2, h3, -⟩ := ring_geometry_make_some _ _ _ hg
    simp only []
    split_ifs with ht
    · cases hw : (wait_reset_complete ENE_RESET_TIMEOUT (write_cr s.hw ENE_CMD_STOP)).1 with
      | none => exact dev_step_refl _
      | some v =>
        refine ⟨fun _ => ⟨ht, ?_, le_refl _, ?_⟩, fun _ => Or.inl rfl⟩ <;>
          (show g.rx_start < g.stop; omega)
    · exact dev_step_refl _

theorem bring_up_ok_inv (a b c : Nat) (s : State)
    (h : (bring_up a b c s).1 = Result.ok) :
    ring_inv (bring_up a b c s).2.1.dev ∧ txing_inv (bring_up a b c s).2.1.dev ∧
      (bring_up a b c s).2.1.dev.ene_init_flg = 1 := by
  unfold bring_up at h ⊢
  cases hg : ring_geometry_make (b % 256) (c % 256) with
  | none => simp [hg] at h
  | some g =>
    obtain ⟨h1, h2, h3, -⟩ := ring_geometry_make_some _ _ _ hg
    simp only [hg] at h ⊢
    split_ifs at h ⊢ with ht
    · cases hw : (wait_reset_complete ENE_RESET_TIMEOUT (write_cr s.hw ENE_CMD_STOP)).1 with
      | none => simp [hw] at h
      | some v =>
        refine ⟨⟨ht, ?_, le_refl _, ?_⟩, Or.inl rfl, rfl⟩ <;>
          (show g.rx_start < g.stop; omega)

theorem overrun_recovery_dev_step (s : State) :
    dev_step s.dev (overrun_recovery s).2.1.dev := by
  unfold overrun_recovery
  split_ifs with hi
  · exact dev_step_refl _
  · simp only []
    cases hw : (wait_reset_complete ENE_RESET_TIMEOUT (write_cr s.hw ENE_CMD_STOP)).1 with
    | none => exact dev_step_refl _
    | some v =>
      simp only []
      split_ifs <;>
        exact ⟨fun h => ⟨h.1, h.2.1, le_refl _, h.2.1⟩, id⟩

theorem hdr_valid_iff (d : awbl_ne2000_dev) (h : __ene_rxpkt_hdr) :
    hdr_valid d h = true ↔
      (h.status &&& __ENE_RSR_PRX ≠ 0 ∧ ENE_HDR_SIZE ≤ h.len ∧
        h.len ≤ (d.stop_page - d.rx_start_page) * ENE_PAGE_SIZE ∧
        d.rx_start_page ≤ h.next_page ∧ h.next_page < d.stop_page) := by
  simp [hdr_valid, dev_ring, and_assoc]

theorem ring_wrap_of_lt (g : ring_geometry) (p : Nat) (h : p < g.stop) :
    ring_wrap g p = p := by
  unfold ring_wrap
  split_ifs with hp
  · omega
  · rfl

theorem rx_loop_dev_step : ∀ (fuel : Nat) (s : State) (r : Result) (s' : State)
    (tr : List Event), rx_loop fuel s = some (r, s', tr) → dev_step s.dev s'.dev := by
  intro fuel
  induction fuel with
  | zero => intro s r s' tr h; simp [rx_loop] at h
  | succ n ih =>
    intro s r s' tr h
    unfold rx_loop at h
    simp only [] at h
    split_ifs at h with hc hv
    · simp only [Option.some.injEq, Prod.mk.injEq] at h
      obtain ⟨-, rfl, -⟩ := h
      exact dev_step_refl _
    · obtain ⟨-, -, -, h4, h5⟩ := (hdr_valid_iff _ _).1 hv
      have hw : ring_wrap (dev_ring s.dev) (read_hdr s.hw s.dev.rx_curr_page).next_page
          = (read_hdr s.hw s.dev.rx_curr_page).next_page := ring_wrap_of_lt _ _ h5
      rw [hw] at h
      cases hrec : rx_loop n
          { dev := { s.dev with rx_curr_page := (read_hdr s.hw s.dev.rx_curr_page).next_page },
            hw := write_bnry s.hw (read_hdr s.hw s.dev.rx_curr_page).next_page } with
      | none => simp [hrec] at h
      | some res =>
        obtain ⟨r1, s2, t2⟩ := res
        simp only [hrec, Option.some.injEq, Prod.mk.injEq] at h
        obtain ⟨-, rfl, -⟩ := h
        refine dev_step_trans ?_ (ih _ _ _ _ hrec)
        exact ⟨fun hr => ⟨hr.1, hr.2.1, h4, h5⟩, id⟩
    · simp only [Option.some.injEq, Prod.mk.injEq] at h
      obtain ⟨-, rfl, -⟩ := h
      exact overrun_recovery_dev_step s

theorem rx_drain_dev_step (fuel : Nat) (s : State) (r : Result) (s' : State)
    (tr : List Event) (h : rx_drain fuel s = some (r, s', tr)) :
    dev_step s.dev s'.dev := by
  unfold rx_drain at h
  split_ifs at h with hi hh
  · simp only [Option.some.injEq, Prod.mk.injEq] at h
    obtain ⟨-, rfl, -⟩ := h
    exact dev_step_refl _
  · simp only [Option.some.injEq, Prod.mk.injEq] at h
    obtain ⟨-, rfl, -⟩ := h
    exact dev_step_refl _
  · cases hrec : rx_loop fuel { s with dev := { s.dev with rx_handling := true } } with
    | none => simp [hrec] at h
    | some res =>
      obtain ⟨r1, s2, t2⟩ := res
      simp only [hrec, Option.some.injEq, Prod.mk.injEq] at h
      obtain ⟨-, rfl, -⟩ := h
      have h2 := rx_loop_dev_step fuel _ _ _ _ hrec
      exact ⟨fun hr => h2.1 hr, fun ht => h2.2 ht⟩

theorem tx_trigger_dev_step (s : State) (slot : Nat) (hs : slot = 1 ∨ slot = 2) :
    dev_step s.dev (tx_trigger s slot).1.dev :=
  ⟨fun h => h, fun _ => Or.inr hs⟩

theorem tx_set_len_dev_step (d : awbl_ne2000_dev) (slot len : Nat) :
    dev_step d (tx_set_len d slot len) := by
  unfold tx_set_len
  split_ifs <;> exact ⟨fun h => h, fun h => h⟩

theorem tx_pick_slot_cases (d : awbl_ne2000_dev) :
    tx_pick_slot d = 0 ∨ tx_pick_slot d = 1 ∨ tx_pick_slot d = 2 := by
  unfold tx_pick_slot
  split_ifs <;> simp

theorem tx_other_cases (slot : Nat) : tx_other slot = 1 ∨ tx_other slot = 2 := by
  unfold tx_other
  split_ifs <;> simp

theorem transmit_dev_step (frame : List Nat) (s : State) :
    dev_step s.dev (transmit frame s).2.1.dev := by
  unfold transmit
  simp only []
  split_ifs with hi h0 hq
  · exact dev_step_refl _
  · exact dev_step_refl _
  · exact tx_set_len_dev_step _ _ _
  · have hp : tx_pick_slot s.dev = 1 ∨ tx_pick_slot s.dev = 2 := by
      rcases tx_pick_slot_cases s.dev with h1 | h1
      · exact absurd h1 h0
      · exact h1
    exact dev_step_trans (tx_set_len_dev_step s.dev (tx_pick_slot s.dev) frame.length)
      (tx_trigger_dev_step
        { dev := tx_set_len s.dev (tx_pick_slot s.dev) frame.length,
          hw := rdma_write s.hw (tx_slot_page s.dev (tx_pick_slot s.dev) * ENE_PAGE_SIZE) frame }
        (tx_pick_slot s.dev) hp)

theorem tx_complete_dev_step (s : State) :
    dev_step s.dev (tx_complete s).2.1.dev := by
  unfold tx_complete
  simp only []
  split_ifs with hi hs hq
  · exact dev_step_refl _
  · refine dev_step_trans (tx_set_len_dev_step s.dev s.dev.txing 0) ?_
    refine dev_step_trans ?_ (tx_trigger_dev_step _ _ (tx_other_cases _))
    exact ⟨fun h => h, fun _ => Or.inl rfl⟩
  · refine dev_step_trans (tx_set_len_dev_step s.dev s.dev.txing 0) ?_
    exact ⟨fun h => h, fun _ => Or.inl rfl⟩
  · exact dev_step_refl _

theorem run_handlers_dev_step (snap : Nat) : ∀ (hs : List (Nat × Handler)),
    (∀ m h, (m, h) ∈ hs → ∀ s s' t, h s = some (s', t) → dev_step s.dev s'.dev) →
    ∀ s s' t, run_handlers snap hs s = some (s', t) → dev_step s.dev s'.dev := by
  intro hs
  induction hs with
  | nil =>
    intro _ s s' t h
    simp only [run_handlers, Option.some.injEq, Prod.mk.injEq] at h
    obtain ⟨rfl, -⟩ := h
    exact dev_step_refl _
  | cons p rest ih =>
    obtain ⟨m, hd⟩ := p
    intro hall s s' t h
    have ih2 := ih (fun m h hm => hall m h (List.mem_cons_of_mem _ hm))
    unfold run_handlers at h
    split_ifs at h with hb
    · cases h1 : hd s with
      | none => simp [h1] at h
      | some r1 =>
        obtain ⟨s1, t1⟩ := r1
        simp only [h1] at h
        cases h2 : run_handlers snap rest s1 with
        | none => simp [h2] at h
        | some r2 =>
          obtain ⟨s2, t2⟩ := r2
          simp only [h2, Option.some.injEq, Prod.mk.injEq] at h
          obtain ⟨rfl, -⟩ := h
          exact dev_step_trans (hall m hd (List.mem_cons_self _ _) s s1 t1 h1)
            (ih2 s1 s2 t2 h2)
    · exact ih2 s s' t h

theorem isr_handlers_dev_step (fuel : Nat) (m : Nat) (h : Handler)
    (hm : (m, h) ∈ isr_handlers fuel) (s s' : State) (t : List Event)
    (hr : h s = some (s', t)) : dev_step s.dev s'.dev := by
  simp only [isr_handlers, List.mem_cons, Prod.mk.injEq, List.mem_singleton,
    List.not_mem_nil, or_false] at hm
  rcases hm with hm | hm | hm | hm | hm | hm | hm | hm <;> obtain ⟨-, rfl⟩ := hm
  · simp only [Option.some.injEq, Prod.mk.injEq] at hr
    obtain ⟨rfl, -⟩ := hr
    exact bring_up_dev_step _ _ _ s
  · simp only [Option.some.injEq, Prod.mk.injEq] at hr
    obtain ⟨rfl, -⟩ := hr
    exact overrun_recovery_dev_step s
  · cases hd : rx_drain fuel s with
    | none => simp [hd] at hr
    | some res =>
      obtain ⟨r1, s1, t1⟩ := res
      simp only [hd, Option.map_some', Option.some.injEq, Prod.mk.injEq] at hr
      obtain ⟨rfl, -⟩ := hr
      exact rx_drain_dev_step fuel s r1 s1 t1 hd
  · cases hd : rx_drain fuel s with
    | none => simp [hd] at hr
    | some res =>
      obtain ⟨r1, s1, t1⟩ := res
      simp only [hd, Option.map_some', Option.some.injEq, Prod.mk.injEq] at hr
      obtain ⟨rfl, -⟩ := hr
      exact rx_drain_dev_step fuel s r1 s1 t1 hd
  · simp only [Option.some.injEq, Prod.mk.injEq] at hr
    obtain ⟨rfl, -⟩ := hr
    exact tx_complete_dev_step s
  · simp only [Option.some.injEq, Prod.mk.injEq] at hr
    obtain ⟨rfl, -⟩ := hr
    exact tx_complete_dev_step s
  · simp only [Option.some.injEq, Prod.mk.injEq] at hr
    obtain ⟨rfl, -⟩ := hr
    exact dev_step_refl _
  · simp only [Option.some.injEq, Prod.mk.injEq] at hr
    obtain ⟨rfl, -⟩ := hr
    exact dev_step_refl _

theorem isr_dispatch_dev_step (fuel : Nat) (s : State) (r : Result) (s' : State)
    (tr : List Event) (h : isr_dispatch fuel s = some (r, s', tr)) :
    dev_step s.dev s'.dev := by
  unfold isr_dispatch at h
  split_ifs at h with hi
  · simp only [Option.some.injEq, Prod.mk.injEq] at h
    obtain ⟨-, rfl, -⟩ := h
    exact dev_step_refl _
  · simp only [] at h
    cases hr : run_handlers (read_isr s.hw).1 (isr_handlers fuel)
        { s with hw := (read_isr s.hw).2 } with
    | none => simp [hr] at h
    | some res =>
      obtain ⟨s1, t1⟩ := res
      simp only [hr, Option.some.injEq, Prod.mk.injEq] at h
      obtain ⟨-, rfl, -⟩ := h
      have h2 := run_handlers_dev_step _ _ (isr_handlers_dev_step fuel) _ _ _ hr
      exact ⟨fun x => h2.1 x, fun x => h2.2 x⟩

theorem op_run_dev_step (op : Op) (s s' : State) (tr : List Event)
    (h : op_run op s = some (s', tr)) : dev_step s.dev s'.dev := by
  cases op with
  | bring_up a b c =>
    simp only [op_run, Option.some.injEq, Prod.mk.injEq] at h
    obtain ⟨rfl, -⟩ := h
    exact bring_up_dev_step a b c s
  | rx_drain fuel =>
    cases hd : rx_drain fuel s with
    | none => simp [op_run, hd] at h
    | some res =>
      obtain ⟨r1, s1, t1⟩ := res
      simp only [op_run, hd, Option.map_some', Option.some.injEq, Prod.mk.injEq] at h
      obtain ⟨rfl, -⟩ := h
      exact rx_drain_dev_step fuel s r1 s1 t1 hd
  | overrun_recovery =>
    simp only [op_run, Option.some.injEq, Prod.mk.injEq] at h
    obtain ⟨rfl, -⟩ := h
    exact overrun_recovery_dev_step s
  | transmit frame =>
    simp only [op_run, Option.some.injEq, Prod.mk.injEq] at h
    obtain ⟨rfl, -⟩ := h
    exact transmit_dev_step frame s
  | tx_complete =>
    simp only [op_run, Option.some.injEq, Prod.mk.injEq] at h
    obtain ⟨rfl, -⟩ := h
    exact tx_complete_dev_step s
  | isr_dispatch fuel =>
    cases hd : isr_dispatch fuel s with
    | none => simp [op_run, hd] at h
    | some res =>
      obtain ⟨r1, s1, t1⟩ := res
      simp only [op_run, hd, Option.map_some', Option.some.injEq, Prod.mk.injEq] at h
      obtain ⟨rfl, -⟩ := h
      exact isr_dispatch_dev_step fuel s r1 s1 t1 hd
  | hw_event hw =>
    simp only [op_run, Option.some.injEq, Prod.mk.injEq] at h
    obtain ⟨rfl, -⟩ := h
    exact dev_step_refl _

theorem reachable_inv (s : State) (h : Reachable s) : ring_inv s.dev ∧ txing_inv s.dev := by
  induction h with
  | boot s0 a b c hok =>
    obtain ⟨h1, h2, -⟩ := bring_up_ok_inv a b c s0 hok
    exact ⟨h1, h2⟩
  | step s op s' tr _ hrun ih =>
    have hs := op_run_dev_step op s s' tr hrun
    exact ⟨hs.1 ih.1, hs.2 ih.2⟩

/-! ## Receive drain on a chain of valid frames -/

theorem rx_chain_congr (s t : State) (hm : t.hw.mem = s.hw.mem) (hc : t.hw.curr = s.hw.curr)
    (h1 : t.dev.rx_start_page = s.dev.rx_start_page) (h2 : t.dev.stop_page = s.dev.stop_page) :
    ∀ n p, rx_chain t n p = rx_chain s n p := by
  have hrc : read_curr t.hw = read_curr s.hw := by simp [read_curr, hc]
  have hrh : ∀ p, read_hdr t.hw p = read_hdr s.hw p := by intro p; simp [read_hdr, hm]
  have hv : ∀ h, hdr_valid t.dev h = hdr_valid s.dev h := by
    intro h; simp [hdr_valid, dev_ring, h1, h2]
  intro n
  induction n with
  | zero => intro p; simp [rx_chain, hrc]
  | succ k ih => intro p; simp [rx_chain, hrc, hrh, hv, ih]

theorem rx_chain_events_congr (hw hw2 : Hw) (hm : hw2.mem = hw.mem) (hc : hw2.curr = hw.curr)
    (h1 : hw2.pstart = hw.pstart) (h2 : hw2.pstop = hw.pstop)
    (fs : List (Nat × __ene_rxpkt_hdr)) : rx_chain_events hw2 fs = rx_chain_events hw fs := by
  induction fs with
  | nil => simp [rx_chain_events, read_curr, hc]
  | cons f fs ih =>
    simp [rx_chain_events, rx_frame_events, rx_payload, rdma_read, rdma_addr, read_curr, hc,
      hm, ih, h1, h2]

theorem rx_loop_chain : ∀ (n : Nat) (s : State) (fs : List (Nat × __ene_rxpkt_hdr)),
    rx_chain s n s.dev.rx_curr_page = some fs → ∀ fuel, n < fuel →
    ∃ s', rx_loop fuel s = some (Result.ok, s', rx_chain_events s.hw fs) ∧
      s'.dev = { s.dev with rx_curr_page := read_curr s.hw } ∧
      s'.hw.mem = s.hw.mem ∧ s'.hw.curr = s.hw.curr ∧ fs.length = n := by
  intro n
  induction n with
  | zero =>
    intro s fs h fuel hf
    obtain ⟨k, rfl⟩ : ∃ k, fuel = k + 1 := ⟨fuel - 1, by omega⟩
    unfold rx_chain at h
    split_ifs at h with hc
    simp only [Option.some.injEq] at h
    subst h
    refine ⟨s, ?_, ?_, rfl, rfl, rfl⟩
    · unfold rx_loop
      simp [hc, rx_chain_events]
    · rw [hc]
  | succ m ih =>
    intro s fs h fuel hf
    obtain ⟨k, rfl⟩ : ∃ k, fuel = k + 1 := ⟨fuel - 1, by omega⟩
    unfold rx_chain at h
    split_ifs at h with hc hv
    obtain ⟨-, -, -, h4, h5⟩ := (hdr_valid_iff _ _).1 hv
    cases hrest : rx_chain s m (read_hdr s.hw s.dev.rx_curr_page).next_page with
    | none => simp [hrest] at h
    | some rest =>
      simp only [hrest, Option.map_some', Option.some.injEq] at h
      subst h
      have hw : ring_wrap (dev_ring s.dev) (read_hdr s.hw s.dev.rx_curr_page).next_page
          = (read_hdr s.hw s.dev.rx_curr_page).next_page := ring_wrap_of_lt _ _ h5
      let s1 : State :=
        { dev := { s.dev with rx_curr_page := (read_hdr s.hw s.dev.rx_curr_page).next_page },
          hw := write_bnry s.hw (read_hdr s.hw s.dev.rx_curr_page).next_page }
      have hcg : rx_chain s1 m s1.dev.rx_curr_page = some rest := by
        rw [rx_chain_congr s s1 rfl rfl rfl rfl]
        exact hrest
      obtain ⟨s2, hl, hd, hm2, hc2, hlen⟩ := ih s1 rest hcg k (by omega)
      refine ⟨s2, ?_, ?_, hm2, hc2, by simp [hlen]⟩
      · unfold rx_loop
        simp only []
        rw [if_neg hc, if_pos hv, hw]
        have hl2 : rx_loop k s1 = some (Result.ok, s2, rx_chain_events s.hw rest) := by
          rw [hl, rx_chain_events_congr s.hw s1.hw rfl rfl rfl rfl]
        simp only [s1] at hl2
        rw [hl2]
        simp [rx_chain_events, rx_frame_events, rx_payload]
      · rw [hd]
        simp [s1, read_curr, write_bnry]

theorem rx_drain_chain (n : Nat) (s : State) (fs : List (Nat × __ene_rxpkt_hdr))
    (hinit : s.dev.ene_init_flg ≠ 0) (hh : s.dev.rx_handling = false)
    (h : rx_chain s n s.dev.rx_curr_page = some fs) (fuel : Nat) (hf : n < fuel) :
    ∃ s', rx_drain fuel s = some (Result.ok, s', rx_chain_events s.hw fs) ∧
      s'.dev = { s.dev with rx_curr_page := read_curr s.hw } ∧ fs.length = n := by
  let s0 : State := { s with dev := { s.dev with rx_handling := true } }
  have hcg : rx_chain s0 n s0.dev.rx_curr_page = some fs := by
    rw [rx_chain_congr s s0 rfl rfl rfl rfl]
    exact h
  obtain ⟨s1, hl, hd, -, -, hlen⟩ := rx_loop_chain n s0 fs hcg fuel hf
  refine ⟨{ s1 with dev := { s1.dev with rx_handling := false } }, ?_, ?_, hlen⟩
  · unfold rx_drain
    rw [if_neg hinit]
    simp only [hh, Bool.false_eq_true, if_false]
    simp only [s0] at hl
    rw [hl]
  · simp only [hd, s0]
    cases hs : s.dev
    simp [hs] at hh
    simp [hh]

/-! ## Claims C1 to C8 -/

/-- C1: ring geometry invariant. Every state reached from a successful
bring-up satisfies `tx_start_page < rx_start_page < stop_page` and
`rx_start_page ≤ rx_curr_page < stop_page`, and every operation (bring-up,
receive drain, overrun recovery, transmit, transmit completion, interrupt
dispatch, and any change of the hardware) preserves this predicate. -/
theorem ring_geometry_invariant :
    (∀ s : State, Reachable s → ring_inv s.dev) ∧
    (∀ (op : Op) (s s' : State) (tr : List Event),
      ring_inv s.dev → op_run op s = some (s', tr) → ring_inv s'.dev) :=
  ⟨fun s h => (reachable_inv s h).1,
   fun op s s' tr hinv hrun => (op_run_dev_step op s s' tr hrun).1 hinv⟩

theorem state_booted_reachable : Reachable state_booted :=
  Reachable.boot state_blank 0x3A 0x46 0x60 (by decide)

theorem state_three_frames_reachable : Reachable state_three_frames :=
  Reachable.step state_booted
    (Op.hw_event { state_booted.hw with curr := 0x4E, mem := mem_three_frames })
    state_three_frames [] state_booted_reachable rfl

/-- Witness for C1: the state holding three frames is reachable and satisfies
the predicate, and so does the state after a transmit from it. -/
theorem ring_geometry_invariant_witness :
    Reachable state_three_frames ∧ ring_inv state_three_frames.dev ∧
    ring_inv (transmit [1, 2, 3] state_three_frames).2.1.dev :=
  ⟨state_three_frames_reachable,
   ring_geometry_invariant.1 state_three_frames state_three_frames_reachable,
   ring_geometry_invariant.2 (Op.transmit [1, 2, 3]) state_three_frames
     (transmit [1, 2, 3] state_three_frames).2.1 (transmit [1, 2, 3] state_three_frames).2.2
     (ring_geometry_invariant.1 state_three_frames state_three_frames_reachable) rfl⟩

theorem rx_chain_events_deliveries (hw : Hw) (fs : List (Nat × __ene_rxpkt_hdr)) :
    deliveries (rx_chain_events hw fs) = fs.map (rx_payload hw) := by
  induction fs with
  | nil => rfl
  | cons f fs ih =>
    unfold deliveries at ih ⊢
    simp [rx_chain_events, rx_frame_events, ih]

theorem rx_chain_events_bnry (hw : Hw) (fs : List (Nat × __ene_rxpkt_hdr)) :
    bnry_writes (rx_chain_events hw fs) = fs.map (fun f => f.2.next_page) := by
  induction fs with
  | nil => rfl
  | cons f fs ih =>
    unfold bnry_writes reg_writes at ih ⊢
    simp [rx_chain_events, rx_frame_events, ih]

theorem rx_chain_last : ∀ (n : Nat) (s : State) (p : Nat)
    (fs : List (Nat × __ene_rxpkt_hdr)), rx_chain s n p = some fs → 1 ≤ n →
    (fs.map (fun f => f.2.next_page)).getLast? = some (read_curr s.hw) := by
  intro n
  induction n with
  | zero => intro s p fs _ hn; omega
  | succ m ih =>
    intro s p fs h _
    unfold rx_chain at h
    split_ifs at h with hc hv
    cases hrest : rx_chain s m (read_hdr s.hw p).next_page with
    | none => simp [hrest] at h
    | some rest =>
      simp only [hrest, Option.map_some', Option.some.injEq] at h
      subst h
      cases m with
      | zero =>
        unfold rx_chain at hrest
        split_ifs at hrest with hc2
        simp only [Option.some.injEq] at hrest
        subst hrest
        simp [hc2]
      | succ k =>
        have h2 := ih s _ rest hrest (by omega)
        cases rest with
        | nil => simp at h2
        | cons r rs =>
          simp only [List.map_cons] at h2 ⊢
          rw [List.getLast?_cons_cons]
          exact h2

/-- C2: boundary pointer after a drain of valid frames. When the ring holds
`n ≥ 1` valid back-to-back frames from rx_curr_page up to the current-page
register, a receive drain with enough iterations returns, and the last value
it writes to the boundary pointer register `__ENE_BNRY` equals the device's
rx_curr_page at the end of the drain. -/
theorem rx_drain_boundary_pointer (s : State) (n : Nat)
    (fs : List (Nat × __ene_rxpkt_hdr)) (fuel : Nat)
    (hinit : s.dev.ene_init_flg ≠ 0) (hh : s.dev.rx_handling = false)
    (hchain : rx_chain s n s.dev.rx_curr_page = some fs) (hn : 1 ≤ n) (hf : n < fuel) :
    ∃ (s' : State) (tr : List Event),
      rx_drain fuel s = some (Result.ok, s', tr) ∧
      (bnry_writes tr).getLast? = some s'.dev.rx_curr_page := by
  obtain ⟨s', hd, hdev, -⟩ := rx_drain_chain n s fs hinit hh hchain fuel hf
  refine ⟨s', _, hd, ?_⟩
  rw [rx_chain_events_bnry, rx_chain_last n s _ fs hchain hn, hdev]

/-- Witness for C2: the drain of the three-frame ring writes 0x4E to the
boundary pointer last and leaves rx_curr_page at 0x4E. -/
theorem rx_drain_boundary_pointer_witness :
    ∃ (s' : State) (tr : List Event),
      rx_drain 4 state_three_frames = some (Result.ok, s', tr) ∧
      (bnry_writes tr).getLast? = some s'.dev.rx_curr_page :=
  rx_drain_boundary_pointer state_three_frames 3 three_frames 4 (by decide) (by decide)
    (by decide) (by decide) (by decide)

/-- C3: ring advance wraps. For a geometry with `start < stop` the
constructor accepts the pair and records the ring length, and for every page
`p` in `[start, stop)` the next page is `p + 1` below stop and `start` when
`p + 1 = stop`, so it stays in `[start, stop)`; a pair with `stop ≤ start` is
rejected. -/
theorem ring_advance_wraps (start stop p : Nat) (hg : start < stop)
    (h1 : start ≤ p) (h2 : p < stop) :
    (∃ g : ring_geometry, ring_geometry_make start stop = some g ∧
      g.length = stop - start ∧
      (p + 1 < stop → advance g p = p + 1) ∧
      (p + 1 = stop → advance g p = start) ∧
      start ≤ advance g p ∧ advance g p < stop) ∧
    (∀ a b : Nat, b ≤ a → ring_geometry_make a b = none) := by
  refine ⟨⟨{ rx_start := start, stop := stop, length := stop - start }, ?_, rfl, ?_, ?_, ?_, ?_⟩, ?_⟩
  · simp [ring_geometry_make, hg]
  · intro h; simp only [advance]; rw [if_neg (by omega)]
  · intro h; simp only [advance]; rw [if_pos (by omega)]
  · simp only [advance]; split_ifs <;> omega
  · simp only [advance]; split_ifs <;> omega
  · intro a b hab
    simp only [ring_geometry_make]
    rw [if_neg (by omega)]

/-- Witness for C3: the ring `[0x46, 0x60)` at its last page 0x5F. -/
theorem ring_advance_wraps_witness :
    (0x46 < 0x60 ∧ 0x46 ≤ 0x5F ∧ 0x5F < 0x60) ∧
    ((∃ g : ring_geometry, ring_geometry_make 0x46 0x60 = some g ∧
      g.length = 0x60 - 0x46 ∧
      (0x5F + 1 < 0x60 → advance g 0x5F = 0x5F + 1) ∧
      (0x5F + 1 = 0x60 → advance g 0x5F = 0x46) ∧
      0x46 ≤ advance g 0x5F ∧ advance g 0x5F < 0x60) ∧
    (∀ a b : Nat, b ≤ a → ring_geometry_make a b = none)) :=
  ⟨by decide, ring_advance_wraps 0x46 0x60 0x5F (by decide) (by decide) (by decide)⟩

/-- C4: transmit slot invariant. In every state reached from a successful
bring-up the selector `txing` is none, slot 1 or slot 2, so the two slots are
never both marked transmitting; `transmit` and the completion path preserve
the selector's range from any state. -/
theorem tx_slot_invariant :
    (∀ s : State, Reachable s →
      txing_inv s.dev ∧ ¬ (slot_transmitting s.dev 1 ∧ slot_transmitting s.dev 2)) ∧
    (∀ (s : State) (frame : List Nat),
      txing_inv s.dev → txing_inv (transmit frame s).2.1.dev) ∧
    (∀ s : State, txing_inv s.dev → txing_inv (tx_complete s).2.1.dev) := by
  refine ⟨fun s h => ⟨(reachable_inv s h).2, ?_⟩,
    fun s frame h => (transmit_dev_step frame s).2 h,
    fun s h => (tx_complete_dev_step s).2 h⟩
  rintro ⟨h1, h2⟩
  unfold slot_transmitting at h1 h2
  omega

/-- Witness for C4: the booted state is reachable, its selector is in range,
and stays in range after a transmit followed by a completion. -/
theorem tx_slot_invariant_witness :
    Reachable state_booted ∧ txing_inv state_booted.dev ∧
    txing_inv (tx_complete (transmit [1, 2, 3] state_booted).2.1).2.1.dev :=
  ⟨state_booted_reachable,
   (tx_slot_invariant.1 state_booted state_booted_reachable).1,
   tx_slot_invariant.2.2 _ (tx_slot_invariant.2.1 state_booted [1, 2, 3]
     (tx_slot_invariant.1 state_booted state_booted_reachable).1)⟩

/-- C5: in-order delivery. When the ring holds `n ≥ 1` valid back-to-back
frames from rx_curr_page up to the current-page register, one receive drain
with enough iterations returns, hands exactly the `n` payloads to the
frame-received callback in ring order, and leaves rx_curr_page equal to the
next_page byte of the last frame's header. -/
theorem rx_drain_in_order (s : State) (n : Nat)
    (fs : List (Nat × __ene_rxpkt_hdr)) (fuel : Nat)
    (hinit : s.dev.ene_init_flg ≠ 0) (hh : s.dev.rx_handling = false)
    (hchain : rx_chain s n s.dev.rx_curr_page = some fs) (hn : 1 ≤ n) (hf : n < fuel) :
    ∃ (s' : State) (tr : List Event),
      rx_drain fuel s = some (Result.ok, s', tr) ∧
      deliveries tr = fs.map (rx_payload s.hw) ∧
      (deliveries tr).length = n ∧
      (fs.map (fun f => f.2.next_page)).getLast? = some s'.dev.rx_curr_page := by
  obtain ⟨s', hd, hdev, hlen⟩ := rx_drain_chain n s fs hinit hh hchain fuel hf
  refine ⟨s', _, hd, rx_chain_events_deliveries _ _, ?_, ?_⟩
  · rw [rx_chain_events_deliveries, List.length_map, hlen]
  · rw [rx_chain_last n s _ fs hchain hn, hdev]

/-- Witness for C5: ring `[0x46, 0x60)` holding frames of 64, 1514 and 60
bytes; the drain delivers the three payloads in order and stops at page
0x4E. -/
theorem rx_drain_in_order_witness :
    ∃ (s' : State) (tr : List Event),
      rx_drain 4 state_three_frames = some (Result.ok, s', tr) ∧
      deliveries tr = three_frames.map (rx_payload state_three_frames.hw) ∧
      (deliveries tr).length = 3 ∧
      (three_frames.map (fun f => f.2.next_page)).getLast? = some s'.dev.rx_curr_page :=
  rx_drain_in_order state_three_frames 3 three_frames 4 (by decide) (by decide)
    (by decide) (by decide) (by decide)

theorem wait_reset_complete_trace : ∀ (n : Nat) (hw : Hw) (e : Event),
    e ∈ (wait_reset_complete n hw).2.2 → ∃ v, e = Event.reg_read 0 __ENE_ISR v := by
  intro n
  induction n with
  | zero => intro hw e h; simp [wait_reset_complete] at h
  | succ k ih =>
    intro hw e h
    unfold wait_reset_complete at h
    simp only [] at h
    split_ifs at h with hr
    · simp only [List.mem_singleton] at h
      exact ⟨_, h⟩
    · simp only [List.mem_cons] at h
      rcases h with h | h
      · exact ⟨_, h⟩
      · exact ih _ e h

theorem overrun_recovery_settled (s : State) (hb : s.dev.rx_start_page < 256) :
    ((overrun_recovery s).2.1.dev.ene_init_flg = 0 ∨
      read_curr (overrun_recovery s).2.1.hw = (overrun_recovery s).2.1.dev.rx_curr_page) ∧
    (overrun_recovery s).2.1.dev.rx_handling = s.dev.rx_handling ∧
    (overrun_recovery s).2.1.dev.rx_start_page = s.dev.rx_start_page := by
  unfold overrun_recovery
  split_ifs with hi
  · exact ⟨Or.inl hi, rfl, rfl⟩
  · simp only []
    cases hw : (wait_reset_complete ENE_RESET_TIMEOUT (write_cr s.hw ENE_CMD_STOP)).1 with
    | none => exact ⟨Or.inl rfl, rfl, rfl⟩
    | some v =>
      simp only []
      split_ifs <;>
        exact ⟨Or.inr (by simp [read_curr, write_cr, write_curr, Nat.mod_eq_of_lt hb]), rfl, rfl⟩

theorem rx_loop_settled : ∀ (fuel : Nat) (s : State) (r : Result) (s' : State)
    (tr : List Event), rx_loop fuel s = some (r, s', tr) → s.dev.rx_start_page < 256 →
    (s'.dev.ene_init_flg = 0 ∨ read_curr s'.hw = s'.dev.rx_curr_page) ∧
    s'.dev.rx_handling = s.dev.rx_handling := by
  intro fuel
  induction fuel with
  | zero => intro s r s' tr h; simp [rx_loop] at h
  | succ n ih =>
    intro s r s' tr h hb
    unfold rx_loop at h
    simp only [] at h
    split_ifs at h with hc hv
    · simp only [Option.some.injEq, Prod.mk.injEq] at h
      obtain ⟨-, rfl, -⟩ := h
      exact ⟨Or.inr hc, rfl⟩
    · split at h
      · simp at h
      · rename_i r1 s2 t2 hrec
        simp only [Option.some.injEq, Prod.mk.injEq] at h
        obtain ⟨-, rfl, -⟩ := h
        have h3 := ih _ _ _ _ hrec hb
        exact ⟨h3.1, h3.2⟩
    · simp only [Option.some.injEq, Prod.mk.injEq] at h
      obtain ⟨-, rfl, -⟩ := h
      have h2 := overrun_recovery_settled s hb
      exact ⟨h2.1, h2.2.1⟩

/-- C6: drain idempotence. Whenever a receive drain returns, a second drain
of the resulting state (current-page register unchanged) returns with any
positive iteration bound, leaves the device and the hardware exactly as they
are, delivers no payload and performs no register write, remote-DMA transfer
or callback: its trace is empty or the single read of the current-page
register. Device fields hold `uint8_t` values. -/
theorem rx_drain_idempotent (s : State) (fuel : Nat) (r : Result) (s' : State)
    (tr : List Event) (hb : s.dev.rx_start_page < 256)
    (h : rx_drain fuel s = some (r, s', tr)) (fuel2 : Nat) :
    ∃ (r2 : Result) (tr2 : List Event),
      rx_drain (fuel2 + 1) s' = some (r2, s', tr2) ∧
      deliveries tr2 = [] ∧
      (tr2 = [] ∨ tr2 = [Event.reg_read 1 __ENE_CURR (read_curr s'.hw)]) ∧
      ∀ e ∈ tr2, is_output e = false := by
  unfold rx_drain at h
  split_ifs at h with hi hh
  · simp only [Option.some.injEq, Prod.mk.injEq] at h
    obtain ⟨-, rfl, -⟩ := h
    refine ⟨Result.not_initialized, [], ?_, rfl, Or.inl rfl, by simp⟩
    simp [rx_drain, hi]
  · simp only [Option.some.injEq, Prod.mk.injEq] at h
    obtain ⟨-, rfl, -⟩ := h
    refine ⟨Result.ok, [], ?_, rfl, Or.inl rfl, by simp⟩
    simp [rx_drain, hi, hh]
  · cases hrec : rx_loop fuel { s with dev := { s.dev with rx_handling := true } } with
    | none => simp [hrec] at h
    | some res =>
      obtain ⟨r1, s1, t1⟩ := res
      simp only [hrec, Option.some.injEq, Prod.mk.injEq] at h
      obtain ⟨-, rfl, -⟩ := h
      obtain ⟨hset, -⟩ := rx_loop_settled fuel _ _ _ _ hrec hb
      rcases hset with h0 | hcur
      · refine ⟨Result.not_initialized, [], ?_, rfl, Or.inl rfl, by simp⟩
        simp [rx_drain, h0]
      · by_cases h0 : s1.dev.ene_init_flg = 0
        · refine ⟨Result.not_initialized, [], ?_, rfl, Or.inl rfl, by simp⟩
          simp [rx_drain, h0]
        · refine ⟨Result.ok, [Event.reg_read 1 __ENE_CURR (read_curr s1.hw)], ?_, rfl,
            Or.inr rfl, by simp [is_output]⟩
          simp [rx_drain, h0, rx_loop, hcur]

/-- Witness for C6: after draining the three-frame ring, a second drain
changes nothing and delivers nothing. -/
theorem rx_drain_idempotent_witness :
    ∃ (s' : State) (tr : List Event),
      rx_drain 4 state_three_frames = some (Result.ok, s', tr) ∧
      ∃ (r2 : Result) (tr2 : List Event),
        rx_drain 1 s' = some (r2, s', tr2) ∧
        deliveries tr2 = [] ∧
        (tr2 = [] ∨ tr2 = [Event.reg_read 1 __ENE_CURR (read_curr s'.hw)]) ∧
        ∀ e ∈ tr2, is_output e = false := by
  obtain ⟨s', hd, -, -⟩ := rx_drain_chain 3 state_three_frames three_frames
    (by decide) (by decide) (by decide) 4 (by decide)
  exact ⟨s', _, hd, rx_drain_idempotent state_three_frames 4 _ s' _ (by decide) hd 0⟩

theorem rdma_reads_append (a b : List Event) :
    rdma_reads (a ++ b) = rdma_reads a ++ rdma_reads b := by
  simp [rdma_reads, List.filterMap_append]

theorem rdma_reads_wait_reset (n : Nat) (hw : Hw) :
    rdma_reads (wait_reset_complete n hw).2.2 = [] := by
  unfold rdma_reads
  rw [List.filterMap_eq_nil_iff]
  intro e he
  obtain ⟨v, rfl⟩ := wait_reset_complete_trace n hw e he
  rfl

theorem rdma_reads_overrun_recovery (s : State) :
    rdma_reads (overrun_recovery s).2.2 = [] := by
  unfold overrun_recovery
  split_ifs with hi
  · rfl
  · simp only []
    have hw := rdma_reads_wait_reset ENE_RESET_TIMEOUT (write_cr s.hw ENE_CMD_STOP)
    cases hw1 : (wait_reset_complete ENE_RESET_TIMEOUT (write_cr s.hw ENE_CMD_STOP)).1 with
    | none =>
      simp only []
      unfold rdma_reads at hw ⊢
      simp [hw]
    | some v =>
      simp only []
      unfold rdma_reads at hw ⊢
      split_ifs <;> simp [hw]

theorem hdr_corrupt_not_valid (d : awbl_ne2000_dev) (h : __ene_rxpkt_hdr)
    (hc : hdr_corrupt d h) : ¬ hdr_valid d h = true := by
  intro hv
  obtain ⟨h1, h2, h3, h4, h5⟩ := (hdr_valid_iff d h).1 hv
  unfold hdr_corrupt at hc
  rcases hc with (hc | hc) | hc | hc | hc
  · omega
  · omega
  · exact h1 hc
  · omega
  · omega

theorem rx_loop_rdma_start : ∀ (fuel : Nat) (s : State) (r : Result) (s' : State)
    (tr : List Event), ring_inv s.dev → rx_loop fuel s = some (r, s', tr) →
    ∀ a n, (a, n) ∈ rdma_reads tr →
      s.dev.rx_start_page ≤ a / ENE_PAGE_SIZE ∧ a / ENE_PAGE_SIZE < s.dev.stop_page := by
  intro fuel
  induction fuel with
  | zero => intro s r s' tr _ h; simp [rx_loop] at h
  | succ k ih =>
    intro s r s' tr hinv h a n ha
    have hpage : s.dev.rx_curr_page * ENE_PAGE_SIZE / ENE_PAGE_SIZE = s.dev.rx_curr_page := by
      unfold ENE_PAGE_SIZE; omega
    have hpage2 : (s.dev.rx_curr_page * ENE_PAGE_SIZE + ENE_HDR_SIZE) / ENE_PAGE_SIZE
        = s.dev.rx_curr_page := by
      unfold ENE_PAGE_SIZE ENE_HDR_SIZE; omega
    unfold rx_loop at h
    simp only [] at h
    split_ifs at h with hc hv
    · simp only [Option.some.injEq, Prod.mk.injEq] at h
      obtain ⟨-, -, rfl⟩ := h
      simp [rdma_reads] at ha
    · obtain ⟨-, -, -, h4, h5⟩ := (hdr_valid_iff _ _).1 hv
      split at h
      · simp at h
      · rename_i r1 s2 t2 hrec
        simp only [Option.some.injEq, Prod.mk.injEq] at h
        obtain ⟨-, -, rfl⟩ := h
        rw [rdma_reads_append] at ha
        rcases List.mem_append.1 ha with ha | ha
        · simp only [rdma_reads, List.filterMap_cons, List.filterMap_nil, List.mem_cons,
            Prod.mk.injEq, List.mem_singleton, List.not_mem_nil, or_false] at ha
          rcases ha with ⟨rfl, -⟩ | ⟨rfl, -⟩
          · rw [hpage]; exact ⟨hinv.2.2.1, hinv.2.2.2⟩
          · rw [hpage2]; exact ⟨hinv.2.2.1, hinv.2.2.2⟩
        · have hw : ring_wrap (dev_ring s.dev) (read_hdr s.hw s.dev.rx_curr_page).next_page
              = (read_hdr s.hw s.dev.rx_curr_page).next_page := ring_wrap_of_lt _ _ h5
          rw [hw] at hrec
          refine (fun h3 => ⟨h3.1, h3.2⟩) (ih _ _ _ _ ?_ hrec a n ha)
          exact ⟨hinv.1, hinv.2.1, h4, h5⟩
    · simp only [Option.some.injEq, Prod.mk.injEq] at h
      obtain ⟨-, -, rfl⟩ := h
      rw [rdma_reads_append, rdma_reads_overrun_recovery] at ha
      simp only [rdma_reads, List.filterMap_cons, List.filterMap_nil, List.append_nil,
        List.mem_singleton, Prod.mk.injEq] at ha
      obtain ⟨rfl, -⟩ := ha
      rw [hpage]; exact ⟨hinv.2.2.1, hinv.2.2.2⟩

/-- C7: corrupted-header safety. When the header read at rx_curr_page has a
next_page outside `[rx_start_page, stop_page)`, or lacks the received-OK
status bit, or has a length outside `[header-size, ring-capacity]`, the
receive loop stops there and runs overrun recovery: the only remote-DMA read
of that iteration is the 4-byte header read at rx_curr_page, inside the ring.
In every drain of a device that satisfies the ring geometry predicate, each
remote-DMA read is issued at a page inside `[rx_start_page, stop_page)`. -/
theorem rx_corrupted_header_safety (s : State) (fuel : Nat)
    (hinv : ring_inv s.dev) (hunread : read_curr s.hw ≠ s.dev.rx_curr_page)
    (hbad : hdr_corrupt s.dev (read_hdr s.hw s.dev.rx_curr_page)) :
    rx_loop (fuel + 1) s = some ((overrun_recovery s).1, (overrun_recovery s).2.1,
      [Event.reg_read 1 __ENE_CURR (read_curr s.hw),
       Event.rdma_read (s.dev.rx_curr_page * ENE_PAGE_SIZE) ENE_HDR_SIZE] ++
        (overrun_recovery s).2.2) ∧
    rdma_reads ([Event.reg_read 1 __ENE_CURR (read_curr s.hw),
       Event.rdma_read (s.dev.rx_curr_page * ENE_PAGE_SIZE) ENE_HDR_SIZE] ++
        (overrun_recovery s).2.2) = [(s.dev.rx_curr_page * ENE_PAGE_SIZE, ENE_HDR_SIZE)] ∧
    (s.dev.rx_start_page * ENE_PAGE_SIZE ≤ s.dev.rx_curr_page * ENE_PAGE_SIZE ∧
      s.dev.rx_curr_page * ENE_PAGE_SIZE + ENE_HDR_SIZE ≤ s.dev.stop_page * ENE_PAGE_SIZE) ∧
    (∀ (fuel2 : Nat) (t : State) (r : Result) (t' : State) (tr : List Event),
      ring_inv t.dev → rx_drain fuel2 t = some (r, t', tr) →
      ∀ a n, (a, n) ∈ rdma_reads tr →
        t.dev.rx_start_page ≤ a / ENE_PAGE_SIZE ∧ a / ENE_PAGE_SIZE < t.dev.stop_page) := by
  refine ⟨?_, ?_, ?_, ?_⟩
  · unfold rx_loop
    simp only []
    rw [if_neg hunread, if_neg (hdr_corrupt_not_valid _ _ hbad)]
  · rw [rdma_reads_append, rdma_reads_overrun_recovery]
    simp [rdma_reads]
  · obtain ⟨-, -, h3, h4⟩ := hinv
    unfold ENE_PAGE_SIZE ENE_HDR_SIZE
    omega
  · intro fuel2 t r t' tr htinv hd a n ha
    unfold rx_drain at hd
    split_ifs at hd with hi hh
    · simp only [Option.some.injEq, Prod.mk.injEq] at hd
      obtain ⟨-, -, rfl⟩ := hd
      simp [rdma_reads] at ha
    · simp only [Option.some.injEq, Prod.mk.injEq] at hd
      obtain ⟨-, -, rfl⟩ := hd
      simp [rdma_reads] at ha
    · split at hd
      · simp at hd
      · rename_i r1 s2 t2 hrec
        simp only [Option.some.injEq, Prod.mk.injEq] at hd
        obtain ⟨-, -, rfl⟩ := hd
        refine (fun h3 => ⟨h3.1, h3.2⟩) (rx_loop_rdma_start fuel2 _ _ _ _ ?_ hrec a n ha)
        exact htinv

/-- Witness for C7: the booted device whose first header names page 0x99 as
next page, outside `[0x46, 0x60)`. -/
theorem rx_corrupted_header_safety_witness :
    (ring_inv state_corrupt.dev ∧
      read_curr state_corrupt.hw ≠ state_corrupt.dev.rx_curr_page ∧
      (read_hdr state_corrupt.hw state_corrupt.dev.rx_curr_page).next_page = 0x99) ∧
    rx_loop 1 state_corrupt = some ((overrun_recovery state_corrupt).1,
      (overrun_recovery state_corrupt).2.1,
      [Event.reg_read 1 __ENE_CURR (read_curr state_corrupt.hw),
       Event.rdma_read (state_corrupt.dev.rx_curr_page * ENE_PAGE_SIZE) ENE_HDR_SIZE] ++
        (overrun_recovery state_corrupt).2.2) :=
  ⟨⟨by decide, by decide, by decide⟩,
   (rx_corrupted_header_safety state_corrupt 0 (by decide) (by decide)
     (Or.inl (Or.inr (by decide)))).1⟩

/-- C8: double-buffered transmit. From an initialized state with both slots
free, the first `transmit` copies its frame to slot 1, triggers the hardware
transmission (start page, byte count, command with the initiate-transmission
bit) and marks slot 1 transmitting; a second `transmit` of a frame of nonzero
`uint16_t` length copies it to slot 2 and records its length without any
register write; the completion path then frees slot 1 and triggers slot 2,
marking it transmitting, before it returns. -/
theorem tx_double_buffered (s : State) (f1 f2 : List Nat)
    (hinit : s.dev.ene_init_flg ≠ 0) (h1 : s.dev.tx1 = 0) (h2 : s.dev.tx2 = 0)
    (ht : s.dev.txing = ENE_TXING_NONE) (hlen : f2.length % 65536 ≠ 0) :
    ((transmit f1 s).1 = Result.ok ∧
      (transmit f1 s).2.1.dev.txing = 1 ∧
      (transmit f1 s).2.2 =
        [Event.rdma_write (s.dev.tx_start_page * ENE_PAGE_SIZE) f1,
         Event.reg_write 0 __ENE_TPSR s.dev.tx_start_page,
         Event.reg_write 0 __ENE_TBCR0 (f1.length % 65536 % 256),
         Event.reg_write 0 __ENE_TBCR1 (f1.length % 65536 / 256),
         Event.reg_write 0 __ENE_CR ENE_CMD_TXP]) ∧
    ((transmit f2 (transmit f1 s).2.1).1 = Result.ok ∧
      (transmit f2 (transmit f1 s).2.1).2.1.dev.txing = 1 ∧
      (transmit f2 (transmit f1 s).2.1).2.1.dev.tx2 = f2.length % 65536 ∧
      (transmit f2 (transmit f1 s).2.1).2.2 =
        [Event.rdma_write ((s.dev.tx_start_page + ENE_TX_SLOT_PAGES) * ENE_PAGE_SIZE) f2]) ∧
    ((tx_complete (transmit f2 (transmit f1 s).2.1).2.1).1 = Result.ok ∧
      (tx_complete (transmit f2 (transmit f1 s).2.1).2.1).2.1.dev.tx1 = 0 ∧
      (tx_complete (transmit f2 (transmit f1 s).2.1).2.1).2.1.dev.txing = 2 ∧
      cr_writes (tx_complete (transmit f2 (transmit f1 s).2.1).2.1).2.2 = [ENE_CMD_TXP] ∧
      reg_writes 0 __ENE_TPSR (tx_complete (transmit f2 (transmit f1 s).2.1).2.1).2.2 =
        [s.dev.tx_start_page + ENE_TX_SLOT_PAGES] ∧
      ENE_CMD_TXP &&& __ENE_CR_TXP ≠ 0) := by
  have hi : ¬ s.dev.ene_init_flg = 0 := hinit
  have ht0 : s.dev.txing = 0 := ht
  have e1 : transmit f1 s =
      (Result.ok,
        { dev := { s.dev with tx1 := f1.length % 65536, txing := 1 },
          hw := write_cr (write_tbcr1 (write_tbcr0 (write_tpsr
            (rdma_write s.hw (s.dev.tx_start_page * ENE_PAGE_SIZE) f1) s.dev.tx_start_page)
            (f1.length % 65536 % 256)) (f1.length % 65536 / 256)) ENE_CMD_TXP },
        [Event.rdma_write (s.dev.tx_start_page * ENE_PAGE_SIZE) f1,
         Event.reg_write 0 __ENE_TPSR s.dev.tx_start_page,
         Event.reg_write 0 __ENE_TBCR0 (f1.length % 65536 % 256),
         Event.reg_write 0 __ENE_TBCR1 (f1.length % 65536 / 256),
         Event.reg_write 0 __ENE_CR ENE_CMD_TXP]) := by
    simp [transmit, hi, tx_pick_slot, tx_slot_free, tx_slot_len, h1, ht0,
      tx_slot_page, tx_set_len, tx_other, tx_trigger]
  have e2 : transmit f2 (transmit f1 s).2.1 =
      (Result.ok,
        { dev := { s.dev with tx1 := f1.length % 65536, tx2 := f2.length % 65536, txing := 1 },
          hw := rdma_write (transmit f1 s).2.1.hw
            ((s.dev.tx_start_page + ENE_TX_SLOT_PAGES) * ENE_PAGE_SIZE) f2 },
        [Event.rdma_write ((s.dev.tx_start_page + ENE_TX_SLOT_PAGES) * ENE_PAGE_SIZE) f2]) := by
    rw [e1]
    simp [transmit, hi, tx_pick_slot, tx_slot_free, tx_slot_len, h2,
      tx_slot_page, tx_set_len, tx_other]
  have e3 : tx_complete (transmit f2 (transmit f1 s).2.1).2.1 =
      (Result.ok,
        { dev := { s.dev with tx1 := 0, tx2 := f2.length % 65536, txing := 2 },
          hw := write_cr (write_tbcr1 (write_tbcr0 (write_tpsr
            (transmit f2 (transmit f1 s).2.1).2.1.hw (s.dev.tx_start_page + ENE_TX_SLOT_PAGES))
            (f2.length % 65536 % 256)) (f2.length % 65536 / 256)) ENE_CMD_TXP },
        [Event.reg_read 0 __ENE_TSR (read_tsr (transmit f2 (transmit f1 s).2.1).2.1.hw),
         Event.on_send_complete 1
           (!tx_failed (read_tsr (transmit f2 (transmit f1 s).2.1).2.1.hw)),
         Event.reg_write 0 __ENE_TPSR (s.dev.tx_start_page + ENE_TX_SLOT_PAGES),
         Event.reg_write 0 __ENE_TBCR0 (f2.length % 65536 % 256),
         Event.reg_write 0 __ENE_TBCR1 (f2.length % 65536 / 256),
         Event.reg_write 0 __ENE_CR ENE_CMD_TXP]) := by
    rw [e2]
    simp [tx_complete, hi, tx_slot_len, tx_slot_page, tx_set_len, tx_other, tx_trigger,
      ENE_TXING_NONE, hlen]
  have first : (transmit f1 s).1 = Result.ok ∧ (transmit f1 s).2.1.dev.txing = 1 ∧
      (transmit f1 s).2.2 =
        [Event.rdma_write (s.dev.tx_start_page * ENE_PAGE_SIZE) f1,
         Event.reg_write 0 __ENE_TPSR s.dev.tx_start_page,
         Event.reg_write 0 __ENE_TBCR0 (f1.length % 65536 % 256),
         Event.reg_write 0 __ENE_TBCR1 (f1.length % 65536 / 256),
         Event.reg_write 0 __ENE_CR ENE_CMD_TXP] := by
    rw [e1]
    exact ⟨rfl, rfl, rfl⟩
  have second : (transmit f2 (transmit f1 s).2.1).1 = Result.ok ∧
      (transmit f2 (transmit f1 s).2.1).2.1.dev.txing = 1 ∧
      (transmit f2 (transmit f1 s).2.1).2.1.dev.tx2 = f2.length % 65536 ∧
      (transmit f2 (transmit f1 s).2.1).2.2 =
        [Event.rdma_write ((s.dev.tx_start_page + ENE_TX_SLOT_PAGES) * ENE_PAGE_SIZE) f2] := by
    rw [e2]
    exact ⟨rfl, rfl, rfl, rfl⟩
  refine ⟨first, second, ?_⟩
  rw [e3]
  refine ⟨rfl, rfl, rfl, ?_, ?_, by decide⟩
  · simp [cr_writes, reg_writes, __ENE_TPSR, __ENE_TBCR0, __ENE_TBCR1, __ENE_CR]
  · simp [reg_writes, __ENE_TPSR, __ENE_TBCR0, __ENE_TBCR1, __ENE_CR]

/-- Witness for C8: two transmits on the booted device, of 3 and 2 bytes. -/
theorem tx_double_buffered_witness :
    (state_booted.dev.ene_init_flg ≠ 0 ∧ state_booted.dev.tx1 = 0 ∧
      state_booted.dev.tx2 = 0 ∧ state_booted.dev.txing = ENE_TXING_NONE) ∧
    (transmit [1, 2, 3] state_booted).2.1.dev.txing = 1 ∧
    (transmit [4, 5] (transmit [1, 2, 3] state_booted).2.1).2.2 =
      [Event.rdma_write
        ((state_booted.dev.tx_start_page + ENE_TX_SLOT_PAGES) * ENE_PAGE_SIZE) [4, 5]] ∧
    (tx_complete (transmit [4, 5] (transmit [1, 2, 3] state_booted).2.1).2.1).2.1.dev.txing
      = 2 :=
  ⟨⟨by decide, by decide, by decide, by decide⟩,
   (tx_double_buffered state_booted [1, 2, 3] [4, 5] (by decide) (by decide) (by decide)
     (by decide) (by decide)).1.2.1,
   (tx_double_buffered state_booted [1, 2, 3] [4, 5] (by decide) (by decide) (by decide)
     (by decide) (by decide)).2.1.2.2.2,
   (tx_double_buffered state_booted [1, 2, 3] [4, 5] (by decide) (by decide) (by decide)
     (by decide) (by decide)).2.2.2.2.1⟩

/-! ## Claims C9 and C10: interrupt status discipline, completion status -/

/-- Accesses made by a handler, not by the dispatcher's own steps: when
overrun recovery runs inside an invocation (overrun bit pending, or
packet-received pending over a corrupted header), its poll for reset-complete
reads the interrupt status register and it clears the overrun status there;
the invocation still starts with the snapshot read and ends with the write of
the snapshot. -/
theorem overrun_handler_isr_access :
    (isr_dispatch 1 state_overrun).map (fun r => isr_reads r.2.2) = some [0x10, 0x90] ∧
    (isr_dispatch 1 state_corrupt_prx).map (fun r => (isr_reads r.2.2, isr_writes r.2.2))
      = some ([0x01, 0x81], [0x10, 0x01]) := by
  decide

set_option maxRecDepth 100000 in
theorem tx_failed_bits : ∀ t, t < 256 →
    ((t &&& __ENE_TSR_ABT ≠ 0 ∨ t &&& __ENE_TSR_FU ≠ 0) → tx_failed t = true) ∧
    (t &&& (0xFF ^^^ (__ENE_TSR_PTX ||| __ENE_TSR_COL)) = 0 → tx_failed t = false) := by
  decide

/-- C10: transmit completion classification. When a slot is transmitting, the
completion path reports exactly one send-complete result, for that slot,
computed from the TX status byte: a failure when the excess-collision abort
bit `__ENE_TSR_ABT` or the FIFO-underrun bit `__ENE_TSR_FU` is set, and a
success when no bit other than `__ENE_TSR_PTX` and `__ENE_TSR_COL` is set. -/
theorem tx_completion_classification (s : State) (hinit : s.dev.ene_init_flg ≠ 0)
    (hslot : s.dev.txing = 1 ∨ s.dev.txing = 2) :
    send_completions (tx_complete s).2.2 =
      [(s.dev.txing, !tx_failed (read_tsr s.hw))] ∧
    ((read_tsr s.hw &&& __ENE_TSR_ABT ≠ 0 ∨ read_tsr s.hw &&& __ENE_TSR_FU ≠ 0) →
      send_completions (tx_complete s).2.2 = [(s.dev.txing, false)]) ∧
    (read_tsr s.hw &&& (0xFF ^^^ (__ENE_TSR_PTX ||| __ENE_TSR_COL)) = 0 →
      send_completions (tx_complete s).2.2 = [(s.dev.txing, true)]) := by
  have hi : ¬ s.dev.ene_init_flg = 0 := hinit
  have hlt : read_tsr s.hw < 256 := by unfold read_tsr; omega
  have hb := tx_failed_bits (read_tsr s.hw) hlt
  have hmain : send_completions (tx_complete s).2.2 =
      [(s.dev.txing, !tx_failed (read_tsr s.hw))] := by
    unfold tx_complete
    rw [if_neg hi]
    simp only []
    rw [if_pos hslot]
    split_ifs <;> simp [send_completions, tx_trigger]
  refine ⟨hmain, ?_, ?_⟩
  · intro h
    rw [hmain, hb.1 h]
    rfl
  · intro h
    rw [hmain, hb.2 h]
    rfl

/-- Witness for C10: slot 1 transmitting and a TX status of transmitted plus
collision; the completion path reports success for slot 1. -/
theorem tx_completion_classification_witness :
    (state_tx_collision.dev.ene_init_flg ≠ 0 ∧ state_tx_collision.dev.txing = 1 ∧
      read_tsr state_tx_collision.hw = __ENE_TSR_PTX ||| __ENE_TSR_COL) ∧
    send_completions (tx_complete state_tx_collision).2.2 = [(1, true)] :=
  ⟨⟨by decide, by decide, by decide⟩,
   (tx_completion_classification state_tx_collision (by decide)
     (Or.inl (by decide))).2.2 (by decide)⟩


/-! ## Claims C14 to C16: register access macros, page select, header layout -/

theorem ene_reg_addr_some (p_this : awbl_ne2000_dev) (base i : Nat)
    (hi : i < p_this.reg_offset.length) :
    ene_reg_addr p_this base i =
      some ((base + p_this.reg_offset.getD i 0 % 2 ^ 32) % 2 ^ 32) := by
  simp [ene_reg_addr, __ENE_SHIFT, List.getD, List.getElem?_eq_getElem hi]

/-- C14: register address translation. For every base address, offset table
and logical index `i` inside the table, each of the four access macros works
on the physical address `base + reg_offset[i]` (computed in `uint32_t`):
the BYTE macros read or replace the single byte there, the SHORT macros the
two bytes there; the result depends on `i` only through `reg_offset[i]`. -/
theorem ene_reg_address_translation (m : DevMem) (p_this : awbl_ne2000_dev)
    (base i data : Nat) (hi : i < p_this.reg_offset.length) :
    ene_reg_addr p_this base i =
      some ((base + p_this.reg_offset.getD i 0 % 2 ^ 32) % 2 ^ 32) ∧
    (base + p_this.reg_offset.getD i 0 < 2 ^ 32 →
      ene_reg_addr p_this base i = some (base + p_this.reg_offset.getD i 0)) ∧
    (∃ a, ene_reg_addr p_this base i = some a ∧
      __ENEREG_BYTE_READ m p_this base i = some (m a % 256) ∧
      __ENEREG_SHORT_READ m p_this base i = some (m a % 256 + 256 * (m (a + 1) % 256)) ∧
      (∃ m1, __ENEREG_BYTE_WRITE m p_this base i data = some m1 ∧
        m1 a = data % 256 ∧ ∀ x, x ≠ a → m1 x = m x) ∧
      (∃ m2, __ENEREG_SHORT_WRITE m p_this base i data = some m2 ∧
        m2 a = data % 256 ∧ m2 (a + 1) = data / 256 % 256 ∧
        ∀ x, x ≠ a → x ≠ a + 1 → m2 x = m x)) ∧
    (∀ (q : awbl_ne2000_dev) (j : Nat), q.reg_offset[j]? = p_this.reg_offset[i]? →
      __ENEREG_BYTE_READ m q base j = __ENEREG_BYTE_READ m p_this base i ∧
      __ENEREG_SHORT_READ m q base j = __ENEREG_SHORT_READ m p_this base i ∧
      __ENEREG_BYTE_WRITE m q base j data = __ENEREG_BYTE_WRITE m p_this base i data ∧
      __ENEREG_SHORT_WRITE m q base j data = __ENEREG_SHORT_WRITE m p_this base i data) := by
  have ha := ene_reg_addr_some p_this base i hi
  refine ⟨ha, ?_, ?_, ?_⟩
  · intro hlt
    rw [ha]
    have h1 : p_this.reg_offset.getD i 0 % 2 ^ 32 = p_this.reg_offset.getD i 0 :=
      Nat.mod_eq_of_lt (by omega)
    rw [h1, Nat.mod_eq_of_lt hlt]
  · generalize (base + p_this.reg_offset.getD i 0 % 2 ^ 32) % 2 ^ 32 = a at ha
    refine ⟨a, ha, ?_, ?_, ?_, ?_⟩
    · simp [__ENEREG_BYTE_READ, ha]
    · simp [__ENEREG_SHORT_READ, ha]
    · refine ⟨fun x => if x = a then data % 256 else m x, ?_, ?_, ?_⟩
      · simp only [__ENEREG_BYTE_WRITE, ha, Option.map_some']
      · simp
      · intro x hx
        simp [hx]
    · refine ⟨fun x => if x = a then data % 256 else if x = a + 1 then data / 256 % 256
        else m x, ?_, ?_, ?_, ?_⟩
      · simp only [__ENEREG_SHORT_WRITE, ha, Option.map_some']
      · simp
      · simp
      · intro x hx hx1
        simp [hx, hx1]
  · intro q j hq
    unfold __ENEREG_BYTE_READ __ENEREG_SHORT_READ __ENEREG_BYTE_WRITE __ENEREG_SHORT_WRITE
      ene_reg_addr __ENE_SHIFT
    rw [hq]
    exact ⟨rfl, rfl, rfl, rfl⟩

/-- Witness for C14: on the board that maps register `i` to `4 * i`, the
interrupt status register (index 7) at base 0x8000 is the byte at 0x801C, not
at 0x8007. -/
theorem ene_reg_address_translation_witness :
    __ENE_ISR < dev_word_bus.reg_offset.length ∧
    ene_reg_addr dev_word_bus 0x8000 __ENE_ISR = some 0x801C ∧
    __ENEREG_BYTE_READ (fun x => x) dev_word_bus 0x8000 __ENE_ISR = some 0x1C :=
  ⟨by decide,
   (ene_reg_address_translation (fun x => x) dev_word_bus 0x8000 __ENE_ISR 0 (by decide)).1.trans
     (by decide),
   by
     obtain ⟨a, h1, h2, -⟩ :=
       (ene_reg_address_translation (fun x => x) dev_word_bus 0x8000 __ENE_ISR 0
         (by decide)).2.2.1
     rw [h2]
     have h3 : a = 0x801C := by
       have h4 : ene_reg_addr dev_word_bus 0x8000 __ENE_ISR = some 0x801C := by decide
       rw [h4] at h1
       exact (Option.some.inj h1).symm
     rw [h3]⟩

/-- C15: page-select encoding. The page-select field of the command register
is the two bits 6 and 7 (`__ENE_CR_PAGESEL = 0xC0`); `__ENE_PAGESEL_k` equals
`k * 0x40` for k = 0, 1, 2, 3; the four codes are pairwise distinct, each lies
inside the field, and the reserved code of page 3 is the whole field. -/
theorem ene_pagesel_encoding :
    __ENE_CR_PAGESEL = 0xC0 ∧ __ENE_CR_PAGESEL = 2 ^ 6 + 2 ^ 7 ∧
    (__ENE_PAGESEL_0 = 0 * 0x40 ∧ __ENE_PAGESEL_1 = 1 * 0x40 ∧
      __ENE_PAGESEL_2 = 2 * 0x40 ∧ __ENE_PAGESEL_3 = 3 * 0x40) ∧
    [__ENE_PAGESEL_0, __ENE_PAGESEL_1, __ENE_PAGESEL_2, __ENE_PAGESEL_3].Nodup ∧
    (∀ c ∈ [__ENE_PAGESEL_0, __ENE_PAGESEL_1, __ENE_PAGESEL_2, __ENE_PAGESEL_3],
      c &&& __ENE_CR_PAGESEL = c) ∧
    __ENE_PAGESEL_3 = __ENE_CR_PAGESEL := by
  decide

/-- C16: receive header layout. `struct __ene_rxpkt_hdr` has three fields of
1, 1 and 2 bytes (status, next_page, len) at offsets 0, 1 and 2, 4 bytes in
all, which is the header size the receive engine uses; a header is decoded
from the 4 consecutive bytes at the start of a ring page (status from the
first, next_page from the second, len little-endian from the last two), its
fields fit 8, 8 and 16 bits, and a valid header has a length of at least 4. -/
theorem ene_rxpkt_hdr_layout :
    __ene_rxpkt_hdr_sizes = [1, 1, 2] ∧
    c_offsets 0 __ene_rxpkt_hdr_sizes = [0, 1, 2] ∧
    c_sizeof __ene_rxpkt_hdr_sizes = 4 ∧
    ENE_HDR_SIZE = c_sizeof __ene_rxpkt_hdr_sizes ∧
    (∀ (hw : Hw) (page : Nat),
      (read_hdr hw page).status = hw.mem (page * ENE_PAGE_SIZE) % 2 ^ 8 ∧
      (read_hdr hw page).next_page = hw.mem (page * ENE_PAGE_SIZE + 1) % 2 ^ 8 ∧
      (read_hdr hw page).len = (hw.mem (page * ENE_PAGE_SIZE + 2) % 2 ^ 8 +
        2 ^ 8 * (hw.mem (page * ENE_PAGE_SIZE + 3) % 2 ^ 8)) ∧
      (read_hdr hw page).status < 2 ^ 8 ∧ (read_hdr hw page).next_page < 2 ^ 8 ∧
      (read_hdr hw page).len < 2 ^ 16) ∧
    (∀ (hw hw2 : Hw) (page : Nat),
      (∀ k, k < ENE_HDR_SIZE →
        hw2.mem (page * ENE_PAGE_SIZE + k) = hw.mem (page * ENE_PAGE_SIZE + k)) →
      read_hdr hw2 page = read_hdr hw page) ∧
    (∀ (d : awbl_ne2000_dev) (h : __ene_rxpkt_hdr), hdr_valid d h = true → 4 ≤ h.len) := by
  refine ⟨rfl, by decide, by decide, by decide, ?_, ?_, ?_⟩
  · intro hw page
    refine ⟨rfl, rfl, rfl, ?_, ?_, ?_⟩
    · exact Nat.mod_lt _ (by decide)
    · exact Nat.mod_lt _ (by decide)
    · simp only [read_hdr]
      omega
  · intro hw hw2 page h
    have h0 := h 0 (by decide)
    have h1 := h 1 (by decide)
    have h2 := h 2 (by decide)
    have h3 := h 3 (by decide)
    simp only [Nat.add_zero] at h0
    simp only [read_hdr, h0, h1, h2, h3]
  · intro d h hv
    exact ((hdr_valid_iff d h).1 hv).2.1


/-! ## Claims C11 and C12: management-bus failures, lost initialization -/

/-- C11: management-bus failure atomicity. A PHY read whose bus transaction
fails, and a link poll in which a bus transaction fails, return a result
other than success (the timeout error on an initialized device), leave the
whole state, so the cached `phy_mode` and `phy_stat`, as it was before the
call, and do not repeat the failed transaction. -/
theorem phy_bus_failure_atomic (bus : MiiBus) (phy_addr reg mode_reg stat_reg : Nat)
    (s : State) :
    (bus.mii_read phy_addr reg = none →
      (phy_read bus phy_addr reg s).1 ≠ Result.ok ∧
      (s.dev.ene_init_flg ≠ 0 → (phy_read bus phy_addr reg s).1 = Result.timeout ∧
        (phy_read bus phy_addr reg s).2.2.2 = [MiiEvent.read phy_addr reg]) ∧
      (phy_read bus phy_addr reg s).2.1 = none ∧
      (phy_read bus phy_addr reg s).2.2.1 = s) ∧
    (bus.mii_read phy_addr mode_reg = none ∨ bus.mii_read phy_addr stat_reg = none →
      (phy_link_poll bus phy_addr mode_reg stat_reg s).1 ≠ Result.ok ∧
      (s.dev.ene_init_flg ≠ 0 →
        (phy_link_poll bus phy_addr mode_reg stat_reg s).1 = Result.timeout ∧
        (phy_link_poll bus phy_addr mode_reg stat_reg s).2.2.Nodup) ∧
      (phy_link_poll bus phy_addr mode_reg stat_reg s).2.1 = s ∧
      (phy_link_poll bus phy_addr mode_reg stat_reg s).2.1.dev.phy_mode = s.dev.phy_mode ∧
      (phy_link_poll bus phy_addr mode_reg stat_reg s).2.1.dev.phy_stat = s.dev.phy_stat) := by
  constructor
  · intro hfail
    by_cases hi : s.dev.ene_init_flg = 0
    · have e : phy_read bus phy_addr reg s = (Result.not_initialized, none, s, []) := by
        simp [phy_read, hi]
      rw [e]
      exact ⟨fun h => Result.noConfusion h, fun h => absurd hi h, rfl, rfl⟩
    · have e : phy_read bus phy_addr reg s =
          (Result.timeout, none, s, [MiiEvent.read phy_addr reg]) := by
        simp [phy_read, hi, hfail]
      rw [e]
      exact ⟨fun h => Result.noConfusion h, fun _ => ⟨rfl, rfl⟩, rfl, rfl⟩
  · intro hfail
    by_cases hi : s.dev.ene_init_flg = 0
    · have e : phy_link_poll bus phy_addr mode_reg stat_reg s =
          (Result.not_initialized, s, []) := by
        simp [phy_link_poll, hi]
      rw [e]
      exact ⟨fun h => Result.noConfusion h, fun h => absurd hi h, rfl, rfl, rfl⟩
    · cases hm : bus.mii_read phy_addr mode_reg with
      | none =>
        have e : phy_link_poll bus phy_addr mode_reg stat_reg s =
            (Result.timeout, s, [MiiEvent.read phy_addr mode_reg]) := by
          simp [phy_link_poll, hi, hm]
        rw [e]
        exact ⟨fun h => Result.noConfusion h, fun _ => ⟨rfl, by simp⟩, rfl, rfl, rfl⟩
      | some m =>
        have hst : bus.mii_read phy_addr stat_reg = none := by
          rcases hfail with h | h
          · rw [hm] at h; exact absurd h (by simp)
          · exact h
        have e : phy_link_poll bus phy_addr mode_reg stat_reg s =
            (Result.timeout, s,
              [MiiEvent.read phy_addr mode_reg, MiiEvent.read phy_addr stat_reg]) := by
          simp [phy_link_poll, hi, hm, hst]
        rw [e]
        refine ⟨fun h => Result.noConfusion h, fun _ => ⟨rfl, ?_⟩, rfl, rfl, rfl⟩
        have he : mode_reg ≠ stat_reg := by
          intro he
          rw [he, hst] at hm
          exact absurd hm (by simp)
        simp [he]

/-- Witness for C11: after a successful poll cached 0x3100 and 0x782D, a poll
on a dead bus keeps both. -/
theorem phy_bus_failure_atomic_witness :
    (state_linked.dev.phy_mode = 0x3100 ∧ state_linked.dev.phy_stat = 0x782D ∧
      bus_dead.mii_read 1 0 = none) ∧
    (phy_link_poll bus_dead 1 0 1 state_linked).1 ≠ Result.ok ∧
    (phy_link_poll bus_dead 1 0 1 state_linked).2.1.dev.phy_mode = 0x3100 ∧
    (phy_link_poll bus_dead 1 0 1 state_linked).2.1.dev.phy_stat = 0x782D :=
  ⟨⟨by decide, by decide, rfl⟩,
   ((phy_bus_failure_atomic bus_dead 1 0 0 1 state_linked).2 (Or.inl rfl)).1,
   ((phy_bus_failure_atomic bus_dead 1 0 0 1 state_linked).2 (Or.inl rfl)).2.2.2.1.trans
     (by decide),
   ((phy_bus_failure_atomic bus_dead 1 0 0 1 state_linked).2 (Or.inl rfl)).2.2.2.2.trans
     (by decide)⟩

/-- C12: fail-fast on lost initialization. When the bounded wait for
reset-complete expires, overrun recovery returns the timeout error, which is
not success, and bring-up returns an error, and both leave `ene_init_flg`
clear. With `ene_init_flg` clear, the receive drain, overrun recovery,
transmit, the completion path, the interrupt dispatcher and the PHY
operations return the not-initialized error, leave the state as it is, and
touch neither a controller register nor the management bus. -/
theorem fail_fast_uninitialized :
    (∀ s : State, s.dev.ene_init_flg ≠ 0 →
      (wait_reset_complete ENE_RESET_TIMEOUT (write_cr s.hw ENE_CMD_STOP)).1 = none →
      (overrun_recovery s).1 = Result.timeout ∧ Result.timeout ≠ Result.ok ∧
      (overrun_recovery s).2.1.dev.ene_init_flg = 0) ∧
    (∀ (a b c : Nat) (s : State),
      (wait_reset_complete ENE_RESET_TIMEOUT (write_cr s.hw ENE_CMD_STOP)).1 = none →
      (bring_up a b c s).1 ≠ Result.ok ∧ (bring_up a b c s).2.1.dev.ene_init_flg = 0) ∧
    (∀ (s : State) (fuel : Nat) (frame : List Nat) (bus : MiiBus) (phy_addr reg val : Nat),
      s.dev.ene_init_flg = 0 →
      rx_drain fuel s = some (Result.not_initialized, s, []) ∧
      overrun_recovery s = (Result.not_initialized, s, []) ∧
      transmit frame s = (Result.not_initialized, s, []) ∧
      tx_complete s = (Result.not_initialized, s, []) ∧
      isr_dispatch fuel s = some (Result.not_initialized, s, []) ∧
      phy_read bus phy_addr reg s = (Result.not_initialized, none, s, []) ∧
      phy_write bus phy_addr reg val s = (Result.not_initialized, s, []) ∧
      phy_link_poll bus phy_addr reg val s = (Result.not_initialized, s, [])) := by
  refine ⟨?_, ?_, ?_⟩
  · intro s hi hw
    have hi2 : ¬ s.dev.ene_init_flg = 0 := hi
    have e : overrun_recovery s =
        (Result.timeout,
          { dev := { s.dev with rx_overrun := true, ene_init_flg := 0 },
            hw := (wait_reset_complete ENE_RESET_TIMEOUT (write_cr s.hw ENE_CMD_STOP)).2.1 },
          Event.reg_write 0 __ENE_CR ENE_CMD_STOP ::
            (wait_reset_complete ENE_RESET_TIMEOUT (write_cr s.hw ENE_CMD_STOP)).2.2) := by
      simp [overrun_recovery, hi2, hw]
    rw [e]
    exact ⟨rfl, fun h => Result.noConfusion h, rfl⟩
  · intro a b c s hw
    unfold bring_up
    cases hg : ring_geometry_make (b % 256) (c % 256) with
    | none => exact ⟨fun h => Result.noConfusion h, rfl⟩
    | some g =>
      simp only []
      split_ifs
      · rw [hw]
        exact ⟨fun h => Result.noConfusion h, rfl⟩
      · exact ⟨fun h => Result.noConfusion h, rfl⟩
  · intro s fuel frame bus phy_addr reg val hi
    refine ⟨?_, ?_, ?_, ?_, ?_, ?_, ?_, ?_⟩
    · simp [rx_drain, hi]
    · simp [overrun_recovery, hi]
    · simp [transmit, hi]
    · simp [tx_complete, hi]
    · simp [isr_dispatch, hi]
    · simp [phy_read, hi]
    · simp [phy_write, hi]
    · simp [phy_link_poll, hi]

/-- Witness for C12: a controller that needs 100 more polls; overrun recovery
times out and clears the flag, and the transmit that follows fails fast. -/
theorem fail_fast_uninitialized_witness :
    (state_slow_reset.dev.ene_init_flg ≠ 0 ∧
      (wait_reset_complete ENE_RESET_TIMEOUT
        (write_cr state_slow_reset.hw ENE_CMD_STOP)).1 = none) ∧
    (overrun_recovery state_slow_reset).1 = Result.timeout ∧
    (overrun_recovery state_slow_reset).2.1.dev.ene_init_flg = 0 ∧
    (transmit [1, 2, 3] (overrun_recovery state_slow_reset).2.1).1 = Result.not_initialized ∧
    (transmit [1, 2, 3] (overrun_recovery state_slow_reset).2.1).2.2 = [] :=
  ⟨⟨by decide, by decide⟩,
   (fail_fast_uninitialized.1 state_slow_reset (by decide) (by decide)).1,
   (fail_fast_uninitialized.1 state_slow_reset (by decide) (by decide)).2.2,
   congrArg Prod.fst (fail_fast_uninitialized.2.2 (overrun_recovery state_slow_reset).2.1 0
     [1, 2, 3] bus_dead 0 0 0
     (fail_fast_uninitialized.1 state_slow_reset (by decide) (by decide)).2.2).2.2.1,
   congrArg (fun r => r.2.2) (fail_fast_uninitialized.2.2
     (overrun_recovery state_slow_reset).2.1 0 [1, 2, 3] bus_dead 0 0 0
     (fail_fast_uninitialized.1 state_slow_reset (by decide) (by decide)).2.2).2.2.1⟩


/-! ## Claim C13: loopback round trip -/

theorem ring_iter_closed (lo hi x : Nat) (h1 : lo ≤ x) (h2 : x < hi) :
    ∀ i, ring_iter lo hi x i = lo + (x - lo + i) % (hi - lo) := by
  intro i
  induction i with
  | zero =>
    simp only [ring_iter, Nat.add_zero]
    rw [Nat.mod_eq_of_lt (by omega)]
    omega
  | succ k ih =>
    have hn : 0 < hi - lo := by omega
    have hr : (x - lo + k) % (hi - lo) < hi - lo := Nat.mod_lt _ hn
    have hs : (x - lo + (k + 1)) % (hi - lo) = ((x - lo + k) % (hi - lo) + 1) % (hi - lo) := by
      rw [Nat.mod_add_mod]
      rfl
    show ring_step lo hi (ring_iter lo hi x k) = _
    rw [ih, hs]
    generalize (x - lo + k) % (hi - lo) = r at hr
    unfold ring_step
    split_ifs with hc
    · have h3 : r + 1 = hi - lo := by omega
      rw [h3, Nat.mod_self]
      rfl
    · rw [Nat.mod_eq_of_lt (by omega)]
      omega

theorem ring_iter_bounds (lo hi x : Nat) (h1 : lo ≤ x) (h2 : x < hi) (i : Nat) :
    lo ≤ ring_iter lo hi x i ∧ ring_iter lo hi x i < hi := by
  rw [ring_iter_closed lo hi x h1 h2]
  have hr : (x - lo + i) % (hi - lo) < hi - lo := Nat.mod_lt _ (by omega)
  omega

theorem ring_iter_inj (lo hi x : Nat) (h1 : lo ≤ x) (h2 : x < hi) (i j : Nat)
    (hi1 : i < hi - lo) (hj : j < hi - lo)
    (he : ring_iter lo hi x i = ring_iter lo hi x j) : i = j := by
  rw [ring_iter_closed lo hi x h1 h2, ring_iter_closed lo hi x h1 h2] at he
  have he2 : (x - lo + i) % (hi - lo) = (x - lo + j) % (hi - lo) := by omega
  by_contra hne
  rcases Nat.lt_or_gt_of_ne hne with hlt | hlt
  · have h3 := Nat.sub_mod_eq_zero_of_mod_eq he2.symm
    have h4 : x - lo + j - (x - lo + i) = j - i := by omega
    rw [h4, Nat.mod_eq_of_lt (by omega)] at h3
    omega
  · have h3 := Nat.sub_mod_eq_zero_of_mod_eq he2
    have h4 : x - lo + i - (x - lo + j) = i - j := by omega
    rw [h4, Nat.mod_eq_of_lt (by omega)] at h3
    omega

theorem ring_iter_add (lo hi x k : Nat) :
    ∀ i, ring_iter lo hi x (k + i) = ring_iter lo hi (ring_iter lo hi x k) i := by
  intro i
  induction i with
  | zero => rfl
  | succ n ih =>
    rw [← Nat.add_assoc]
    simp only [ring_iter, ih]

theorem ring_iter_linear (lo hi x : Nat) :
    ∀ k, x + k < hi → ring_iter lo hi x k = x + k := by
  intro k
  induction k with
  | zero => intro _; rfl
  | succ n ih =>
    intro h
    simp only [ring_iter, ih (by omega), ring_step]
    rw [if_neg (by omega)]
    rfl

theorem hw_store_get (hw : Hw) (a : Nat) (bytes : List Nat) (j : Nat)
    (hj : j < bytes.length)
    (hinj : ∀ i, i < bytes.length → rdma_addr hw a i = rdma_addr hw a j → i = j) :
    hw_store hw a bytes (rdma_addr hw a j) = bytes.getD j 0 % 256 := by
  unfold hw_store
  cases hf : (List.range bytes.length).find?
      (fun i => decide (rdma_addr hw a i = rdma_addr hw a j)) with
  | none =>
    rw [List.find?_eq_none] at hf
    have h := hf j (List.mem_range.2 hj)
    simp at h
  | some i =>
    have h1 := List.find?_some hf
    have h2 := List.mem_range.1 (List.mem_of_find?_eq_some hf)
    simp only [decide_eq_true_eq] at h1
    have h3 := hinj i h2 h1
    subst h3
    rfl

theorem ene_pages_bound (n : Nat) : n ≤ ene_pages n * ENE_PAGE_SIZE ∧ (0 < n → 0 < ene_pages n) := by
  unfold ene_pages ENE_PAGE_SIZE
  constructor <;> omega

theorem hw_receive_spec (hw : Hw) (frame : List Nat)
    (h1 : hw.pstart % 256 ≤ hw.curr % 256) (h2 : hw.curr % 256 < hw.pstop % 256)
    (hb : hw.bnry % 256 = hw.curr % 256)
    (hroom : ene_pages (frame.length + ENE_HDR_SIZE) < hw.pstop % 256 - hw.pstart % 256)
    (hbytes : ∀ b ∈ frame, b < 256) :
    read_curr (hw_receive hw frame) =
      hw_page_after hw (hw.curr % 256) (ene_pages (frame.length + ENE_HDR_SIZE)) ∧
    (hw.pstart % 256 ≤ read_curr (hw_receive hw frame) ∧
      read_curr (hw_receive hw frame) < hw.pstop % 256 ∧
      read_curr (hw_receive hw frame) ≠ hw.curr % 256) ∧
    read_hdr (hw_receive hw frame) (hw.curr % 256) =
      { status := __ENE_RSR_PRX, next_page := read_curr (hw_receive hw frame),
        len := frame.length + ENE_HDR_SIZE } ∧
    rdma_read (hw_receive hw frame) (hw.curr % 256 * ENE_PAGE_SIZE + ENE_HDR_SIZE)
      frame.length = frame := by
  have hpg := ene_pages_bound (frame.length + ENE_HDR_SIZE)
  have hroom2 : hw_room hw = hw.pstop % 256 - hw.pstart % 256 := by
    unfold hw_room
    simp only [hb]
    rw [Nat.add_sub_cancel_left, Nat.mod_self]
    rfl
  have hrecv : hw_receive hw frame =
      { hw with
        mem := hw_store hw (hw.curr % 256 * ENE_PAGE_SIZE)
          ([__ENE_RSR_PRX,
            hw_page_after hw (hw.curr % 256) (ene_pages (frame.length + ENE_HDR_SIZE)),
            (frame.length + ENE_HDR_SIZE) % 256,
            (frame.length + ENE_HDR_SIZE) / 256 % 256] ++ frame),
        curr := hw_page_after hw (hw.curr % 256) (ene_pages (frame.length + ENE_HDR_SIZE)),
        isr := hw.isr ||| __ENE_ISR_PRX } := by
    unfold hw_receive
    simp only []
    rw [if_pos (by rw [hroom2]; exact hroom)]
  have hnb := ring_iter_bounds (hw.pstart % 256) (hw.pstop % 256) (hw.curr % 256) h1 h2
    (ene_pages (frame.length + ENE_HDR_SIZE))
  have hne : hw_page_after hw (hw.curr % 256) (ene_pages (frame.length + ENE_HDR_SIZE))
      ≠ hw.curr % 256 := by
    intro he
    have h0 := ring_iter_inj (hw.pstart % 256) (hw.pstop % 256) (hw.curr % 256) h1 h2
      (ene_pages (frame.length + ENE_HDR_SIZE)) 0 hroom (by omega) he
    have h3 := hpg.2 (by unfold ENE_HDR_SIZE; omega)
    omega
  have hstop : hw.pstop % 256 < 256 := Nat.mod_lt _ (by decide)
  have hlen : frame.length + ENE_HDR_SIZE <
      hw.pstop % 256 * ENE_PAGE_SIZE - hw.pstart % 256 * ENE_PAGE_SIZE := by
    have := hpg.1
    unfold ENE_PAGE_SIZE at this ⊢
    omega
  have hlo : hw.pstart % 256 * ENE_PAGE_SIZE ≤ hw.curr % 256 * ENE_PAGE_SIZE := by
    unfold ENE_PAGE_SIZE; omega
  have hhi : hw.curr % 256 * ENE_PAGE_SIZE < hw.pstop % 256 * ENE_PAGE_SIZE := by
    unfold ENE_PAGE_SIZE; omega
  have hinj : ∀ i j, i < frame.length + ENE_HDR_SIZE → j < frame.length + ENE_HDR_SIZE →
      rdma_addr hw (hw.curr % 256 * ENE_PAGE_SIZE) i =
        rdma_addr hw (hw.curr % 256 * ENE_PAGE_SIZE) j → i = j := by
    intro i j hi hj he
    exact ring_iter_inj _ _ _ hlo hhi i j (by omega) (by omega) he
  have hlin : ∀ k, k ≤ 4 → rdma_addr hw (hw.curr % 256 * ENE_PAGE_SIZE) k =
      hw.curr % 256 * ENE_PAGE_SIZE + k := by
    intro k hk
    exact ring_iter_linear _ _ _ k (by unfold ENE_PAGE_SIZE; omega)
  have hget : ∀ j, j < frame.length + ENE_HDR_SIZE →
      (hw_receive hw frame).mem (rdma_addr hw (hw.curr % 256 * ENE_PAGE_SIZE) j) =
        ([__ENE_RSR_PRX,
          hw_page_after hw (hw.curr % 256) (ene_pages (frame.length + ENE_HDR_SIZE)),
          (frame.length + ENE_HDR_SIZE) % 256,
          (frame.length + ENE_HDR_SIZE) / 256 % 256] ++ frame).getD j 0 % 256 := by
    intro j hj
    rw [hrecv]
    have hl : ([__ENE_RSR_PRX,
          hw_page_after hw (hw.curr % 256) (ene_pages (frame.length + ENE_HDR_SIZE)),
          (frame.length + ENE_HDR_SIZE) % 256,
          (frame.length + ENE_HDR_SIZE) / 256 % 256] ++ frame).length
        = frame.length + ENE_HDR_SIZE := by
      simp [ENE_HDR_SIZE]
    exact hw_store_get hw _ _ j (by rw [hl]; exact hj)
      (fun i hi he => hinj i j (by rw [hl] at hi; exact hi) hj he)
  have hcurr : read_curr (hw_receive hw frame) =
      hw_page_after hw (hw.curr % 256) (ene_pages (frame.length + ENE_HDR_SIZE)) := by
    rw [hrecv]
    unfold hw_page_after at hnb ⊢
    simp only [read_curr]
    exact Nat.mod_eq_of_lt (by omega)
  refine ⟨hcurr, ?_, ?_, ?_⟩
  · rw [hcurr]
    exact ⟨hnb.1, hnb.2, hne⟩
  · have g0 := hget 0 (by unfold ENE_HDR_SIZE; omega)
    have g1 := hget 1 (by unfold ENE_HDR_SIZE; omega)
    have g2 := hget 2 (by unfold ENE_HDR_SIZE; omega)
    have g3 := hget 3 (by unfold ENE_HDR_SIZE; omega)
    rw [hlin 0 (by omega)] at g0
    rw [hlin 1 (by omega)] at g1
    rw [hlin 2 (by omega)] at g2
    rw [hlin 3 (by omega)] at g3
    simp only [Nat.add_zero] at g0
    simp only [List.cons_append, List.getD_cons_zero, List.getD_cons_succ] at g0 g1 g2 g3
    have hN : hw_page_after hw (hw.curr % 256) (ene_pages (frame.length + ENE_HDR_SIZE)) < 256 := by
      unfold hw_page_after
      omega
    have hL : frame.length + ENE_HDR_SIZE < 65536 := by
      unfold ENE_PAGE_SIZE at hlen
      omega
    simp only [read_hdr, g0, g1, g2, g3, hcurr, __ene_rxpkt_hdr.mk.injEq]
    refine ⟨by decide, by omega, by omega⟩
  · have hadd : ∀ i, rdma_addr (hw_receive hw frame)
        (hw.curr % 256 * ENE_PAGE_SIZE + ENE_HDR_SIZE) i =
        rdma_addr hw (hw.curr % 256 * ENE_PAGE_SIZE) (4 + i) := by
      intro i
      have e1 : rdma_addr (hw_receive hw frame)
          (hw.curr % 256 * ENE_PAGE_SIZE + ENE_HDR_SIZE) i =
          rdma_addr hw (hw.curr % 256 * ENE_PAGE_SIZE + ENE_HDR_SIZE) i := by
        rw [hrecv]
        rfl
      rw [e1]
      unfold rdma_addr
      rw [ring_iter_add]
      have e2 := hlin 4 (by omega)
      unfold rdma_addr at e2
      rw [e2]
      rfl
    unfold rdma_read
    apply List.ext_getElem
    · simp
    · intro i hi1 hi2
      have hi3 : i < frame.length := hi2
      simp only [List.getElem_map, List.getElem_range]
      rw [hadd i, hget (4 + i) (by unfold ENE_HDR_SIZE; omega)]
      have e3 : ([__ENE_RSR_PRX,
          hw_page_after hw (hw.curr % 256) (ene_pages (frame.length + ENE_HDR_SIZE)),
          (frame.length + ENE_HDR_SIZE) % 256,
          (frame.length + ENE_HDR_SIZE) / 256 % 256] ++ frame).getD (4 + i) 0 = frame[i] := by
        rw [Nat.add_comm 4 i]
        simp only [List.cons_append, List.nil_append, List.getD_cons_succ]
        rw [List.getD_eq_getElem _ _ hi3]
      rw [e3]
      have hlt := hbytes frame[i] (List.getElem_mem _)
      omega

theorem transmit_first (s : State) (frame : List Nat) (hinit : s.dev.ene_init_flg ≠ 0)
    (h1 : s.dev.tx1 = 0) (ht : s.dev.txing = ENE_TXING_NONE) :
    transmit frame s =
      (Result.ok,
        { dev := { s.dev with tx1 := frame.length % 65536, txing := 1 },
          hw := write_cr (write_tbcr1 (write_tbcr0 (write_tpsr
            (rdma_write s.hw (s.dev.tx_start_page * ENE_PAGE_SIZE) frame) s.dev.tx_start_page)
            (frame.length % 65536 % 256)) (frame.length % 65536 / 256)) ENE_CMD_TXP },
        [Event.rdma_write (s.dev.tx_start_page * ENE_PAGE_SIZE) frame,
         Event.reg_write 0 __ENE_TPSR s.dev.tx_start_page,
         Event.reg_write 0 __ENE_TBCR0 (frame.length % 65536 % 256),
         Event.reg_write 0 __ENE_TBCR1 (frame.length % 65536 / 256),
         Event.reg_write 0 __ENE_CR ENE_CMD_TXP]) := by
  have hi : ¬ s.dev.ene_init_flg = 0 := hinit
  have ht0 : s.dev.txing = 0 := ht
  simp [transmit, hi, tx_pick_slot, tx_slot_free, tx_slot_len, h1, ht0,
    tx_slot_page, tx_set_len, tx_other, tx_trigger]

theorem hw_transmit_loopback (s : State) (frame : List Nat) (tcr : Nat)
    (hinit : s.dev.ene_init_flg ≠ 0) (h1 : s.dev.tx1 = 0)
    (ht : s.dev.txing = ENE_TXING_NONE) (htx : s.dev.tx_start_page < 256)
    (hlen : frame.length < 65536) (hbytes : ∀ b ∈ frame, b < 256)
    (hloop : tcr &&& __ENE_TCR_LB = __ENE_LOOP_NIC) :
    ∃ hw1 : Hw, hw_transmit tcr (transmit frame s).2.1.hw = hw_receive hw1 frame ∧
      hw1.pstart = s.hw.pstart ∧ hw1.pstop = s.hw.pstop ∧ hw1.curr = s.hw.curr ∧
      hw1.bnry = s.hw.bnry := by
  rw [transmit_first s frame hinit h1 ht]
  simp only []
  generalize hT : write_cr (write_tbcr1 (write_tbcr0 (write_tpsr
      (rdma_write s.hw (s.dev.tx_start_page * ENE_PAGE_SIZE) frame) s.dev.tx_start_page)
      (frame.length % 65536 % 256)) (frame.length % 65536 / 256)) ENE_CMD_TXP = hwT
  have hcr : hwT.cr = ENE_CMD_TXP % 256 := by rw [← hT]; rfl
  have h0 : hwT.tbcr0 = frame.length % 65536 % 256 % 256 := by rw [← hT]; rfl
  have h1' : hwT.tbcr1 = frame.length % 65536 / 256 % 256 := by rw [← hT]; rfl
  have hp : hwT.tpsr = s.dev.tx_start_page % 256 := by rw [← hT]; rfl
  have hm : hwT.mem = fun a =>
      if s.dev.tx_start_page * ENE_PAGE_SIZE ≤ a ∧
          a < s.dev.tx_start_page * ENE_PAGE_SIZE + frame.length
      then frame.getD (a - s.dev.tx_start_page * ENE_PAGE_SIZE) 0 % 256 else s.hw.mem a := by
    rw [← hT]; rfl
  have hl : hwT.tbcr0 % 256 + 256 * (hwT.tbcr1 % 256) = frame.length := by
    rw [h0, h1']
    omega
  have hfr : (List.range (hwT.tbcr0 % 256 + 256 * (hwT.tbcr1 % 256))).map
      (fun i => hwT.mem (hwT.tpsr % 256 * ENE_PAGE_SIZE + i) % 256) = frame := by
    rw [hl]
    apply List.ext_getElem
    · simp
    · intro i hi1 hi2
      have hi3 : i < frame.length := hi2
      simp only [List.getElem_map, List.getElem_range, hm, hp]
      have e1 : s.dev.tx_start_page % 256 % 256 = s.dev.tx_start_page := by omega
      rw [e1, if_pos ⟨by omega, by omega⟩, Nat.add_sub_cancel_left,
        List.getD_eq_getElem _ _ hi3]
      have hlt := hbytes frame[i] (List.getElem_mem _)
      omega
  refine ⟨{ hwT with
      cr := hwT.cr &&& (0xFF ^^^ __ENE_CR_TXP), tsr := __ENE_TSR_PTX,
      isr := hwT.isr ||| __ENE_ISR_PTX }, ?_, ?_, ?_, ?_, ?_⟩
  · unfold hw_transmit
    have hc2 : ¬ hwT.cr &&& __ENE_CR_TXP = 0 := by rw [hcr]; decide
    have hl2 : ¬ tcr &&& __ENE_TCR_LB = __ENE_LOOP_OFF := by rw [hloop]; decide
    rw [if_neg hc2]
    simp only []
    rw [if_neg hl2, hfr]
  · rw [← hT]; rfl
  · rw [← hT]; rfl
  · rw [← hT]; rfl
  · rw [← hT]; rfl

/-- C13: loopback round trip. From an initialized device with an idle
transmitter, an empty receive ring (current-page register and boundary pointer
at the read cursor) and the hardware ring registers holding the device's
geometry, for every frame of bytes that fits a transmit slot (1500 bytes in
particular) and fits the free ring, `transmit` is accepted, and after the
hardware loops the frame back (loopback mode in the transmit configuration) a
receive drain returns success and hands the frame-received callback exactly
one buffer, equal to the transmitted frame in length and in every byte. -/
theorem loopback_round_trip (s : State) (frame : List Nat) (tcr fuel : Nat)
    (hinit : s.dev.ene_init_flg ≠ 0)
    (hfree : s.dev.tx1 = 0 ∧ s.dev.txing = ENE_TXING_NONE)
    (hh : s.dev.rx_handling = false) (hinv : ring_inv s.dev)
    (hstop : s.dev.stop_page < 256)
    (hgeo : s.hw.pstart = s.dev.rx_start_page ∧ s.hw.pstop = s.dev.stop_page)
    (hempty : s.hw.curr % 256 = s.dev.rx_curr_page ∧ s.hw.bnry % 256 = s.dev.rx_curr_page)
    (hlen : frame.length ≤ ENE_TX_SLOT_PAGES * ENE_PAGE_SIZE)
    (hbytes : ∀ b ∈ frame, b < 256)
    (hroom : ene_pages (frame.length + ENE_HDR_SIZE) < s.dev.stop_page - s.dev.rx_start_page)
    (hloop : tcr &&& __ENE_TCR_LB = __ENE_LOOP_NIC) :
    (transmit frame s).1 = Result.ok ∧
    ∃ s' tr,
      rx_drain (fuel + 2)
        { dev := (transmit frame s).2.1.dev,
          hw := hw_transmit tcr (transmit frame s).2.1.hw } = some (Result.ok, s', tr) ∧
      deliveries tr = [frame] := by
  obtain ⟨ht1, ht2, hc1, hc2⟩ := hinv
  have hl : frame.length < 65536 := by
    unfold ENE_TX_SLOT_PAGES ENE_PAGE_SIZE at hlen
    omega
  obtain ⟨hw1, he, hps, hpe, hc, hb⟩ :=
    hw_transmit_loopback s frame tcr hinit hfree.1 hfree.2 (by omega) hl hbytes hloop
  have hT := transmit_first s frame hinit hfree.1 hfree.2
  refine ⟨by rw [hT], ?_⟩
  rw [he, hT]
  simp only []
  have e1 : hw1.pstart % 256 = s.dev.rx_start_page := by rw [hps, hgeo.1]; omega
  have e2 : hw1.pstop % 256 = s.dev.stop_page := by rw [hpe, hgeo.2]; omega
  have e3 : hw1.curr % 256 = s.dev.rx_curr_page := by rw [hc]; exact hempty.1
  have e4 : hw1.bnry % 256 = s.dev.rx_curr_page := by rw [hb]; exact hempty.2
  obtain ⟨-, ⟨g1, g2, g3⟩, g4, g5⟩ := hw_receive_spec hw1 frame
    (by rw [e1, e3]; exact hc1) (by rw [e2, e3]; exact hc2) (by rw [e3, e4])
    (by rw [e1, e2]; exact hroom) hbytes
  rw [e1] at g1
  rw [e2] at g2
  rw [e3] at g3 g4 g5
  generalize hw_receive hw1 frame = hw2 at g1 g2 g3 g4 g5 ⊢
  generalize hd : ({ s.dev with tx1 := frame.length % 65536, txing := 1 } : awbl_ne2000_dev)
    = dev2
  have d1 : dev2.rx_curr_page = s.dev.rx_curr_page := by rw [← hd]
  have d2 : dev2.rx_start_page = s.dev.rx_start_page := by rw [← hd]
  have d3 : dev2.stop_page = s.dev.stop_page := by rw [← hd]
  have d4 : dev2.ene_init_flg ≠ 0 := by rw [← hd]; exact hinit
  have d5 : dev2.rx_handling = false := by rw [← hd]; exact hh
  have hv : hdr_valid dev2 (read_hdr hw2 s.dev.rx_curr_page) = true := by
    rw [hdr_valid_iff, g4, d2, d3]
    have hb1 := (ene_pages_bound (frame.length + ENE_HDR_SIZE)).1
    have hb2 : ene_pages (frame.length + ENE_HDR_SIZE) * ENE_PAGE_SIZE ≤
        (s.dev.stop_page - s.dev.rx_start_page) * ENE_PAGE_SIZE :=
      Nat.mul_le_mul_right _ (Nat.le_of_lt hroom)
    have hst : __ENE_RSR_PRX &&& __ENE_RSR_PRX ≠ 0 := by decide
    exact ⟨hst, Nat.le_add_left _ _, Nat.le_trans hb1 hb2, g1, g2⟩
  have hch : rx_chain { dev := dev2, hw := hw2 } 1 dev2.rx_curr_page =
      some [(s.dev.rx_curr_page, read_hdr hw2 s.dev.rx_curr_page)] := by
    rw [d1]
    unfold rx_chain
    rw [if_neg g3]
    simp only []
    rw [hv, if_pos rfl]
    unfold rx_chain
    rw [g4]
    simp
  obtain ⟨s', hr, -, -⟩ := rx_drain_chain 1 { dev := dev2, hw := hw2 } _ d4 d5 hch
    (fuel + 2) (by omega)
  refine ⟨s', _, hr, ?_⟩
  rw [rx_chain_events_deliveries]
  simp only [List.map_cons, List.map_nil, rx_payload, g4, Nat.add_sub_cancel, g5]

/-- Witness for C13: a 1500-byte frame sent from the device after bring-up in
internal loopback is delivered back unchanged. -/
theorem loopback_round_trip_witness :
    frame_1500.length = 1500 ∧
    (transmit frame_1500 state_booted).1 = Result.ok ∧
    ∃ s' tr,
      rx_drain 2
        { dev := (transmit frame_1500 state_booted).2.1.dev,
          hw := hw_transmit __ENE_LOOP_NIC (transmit frame_1500 state_booted).2.1.hw } =
        some (Result.ok, s', tr) ∧
      deliveries tr = [frame_1500] := by
  have hl : frame_1500.length = 1500 := by simp [frame_1500]
  refine ⟨hl, loopback_round_trip state_booted frame_1500 __ENE_LOOP_NIC 0 (by decide)
    (by decide) (by decide) (by decide) (by decide) (by decide) (by decide) ?_ ?_ ?_
    (by decide)⟩
  · rw [hl]; decide
  · intro b hb
    simp only [frame_1500, List.mem_map, List.mem_range] at hb
    obtain ⟨i, -, rfl⟩ := hb
    omega
  · rw [hl]; decide


/-! ## Claims C21, C23 and C24: bit masks and register map of the header -/

set_option maxRecDepth 100000 in
theorem ene_isr_sources_or : ∀ v, v < 256 → ene_or_all (ene_isr_sources v) = v := by
  decide

set_option maxRecDepth 100000 in
theorem ene_isr_sources_of_or :
    ∀ S ∈ ene_isr_masks.sublists, ene_isr_sources (ene_or_all S) = S := by
  decide

set_option maxRecDepth 100000 in
/-- C21: interrupt-status decomposition. The eight interrupt status masks of
the header are the single bits 2^0 .. 2^7 in the header's order, pairwise
disjoint, and their OR is 0xFF. For every status byte `v` the OR of the
masks `m` with `(v AND m) != 0` is `v`, and a set of masks has OR `v` only if
it is that set. The dispatcher's eight handlers carry the eight masks, each
once, in the priority order reset-complete, overrun, receive-error,
packet-received, transmit-error, packet-sent, remote-DMA-complete,
counter-overflow. -/
theorem isr_status_decomposition :
    ene_isr_masks = (List.range 8).map (fun k => 2 ^ k) ∧
    ene_isr_masks.Pairwise (fun a b => a &&& b = 0) ∧
    ene_or_all ene_isr_masks = 0xFF ∧
    (∀ v, v < 256 → ene_or_all (ene_isr_sources v) = v ∧
      ∀ S : List Nat, S.Sublist ene_isr_masks →
        (ene_or_all S = v ↔ S = ene_isr_sources v)) ∧
    (∀ fuel, (isr_handlers fuel).map Prod.fst =
        [__ENE_ISR_RST, __ENE_ISR_OVW, __ENE_ISR_RXE, __ENE_ISR_PRX, __ENE_ISR_TXE,
         __ENE_ISR_PTX, __ENE_ISR_RDC, __ENE_ISR_CNT] ∧
      ((isr_handlers fuel).map Prod.fst).Perm ene_isr_masks ∧
      ((isr_handlers fuel).map Prod.fst).Nodup) := by
  refine ⟨by decide, by decide, by decide, ?_, ?_⟩
  · intro v hv
    refine ⟨ene_isr_sources_or v hv, ?_⟩
    intro S hS
    constructor
    · intro h
      rw [← h]
      exact (ene_isr_sources_of_or S (List.mem_sublists.2 hS)).symm
    · intro h
      rw [h]
      exact ene_isr_sources_or v hv
  · intro fuel
    have e : (isr_handlers fuel).map Prod.fst =
        [__ENE_ISR_RST, __ENE_ISR_OVW, __ENE_ISR_RXE, __ENE_ISR_PRX, __ENE_ISR_TXE,
         __ENE_ISR_PTX, __ENE_ISR_RDC, __ENE_ISR_CNT] := rfl
    rw [e]
    exact ⟨rfl, by decide, by decide⟩

/-- Witness for C21: the status byte 0x11 holds packet-received and overrun,
and no other set of masks has OR 0x11. -/
theorem isr_status_decomposition_witness :
    ene_isr_sources 0x11 = [__ENE_ISR_PRX, __ENE_ISR_OVW] ∧
    ene_or_all [__ENE_ISR_PRX, __ENE_ISR_OVW] = 0x11 ∧
    (ene_or_all [__ENE_ISR_PRX, __ENE_ISR_OVW] = 0x11 ↔
      [__ENE_ISR_PRX, __ENE_ISR_OVW] = ene_isr_sources 0x11) :=
  ⟨by decide, by decide,
   (isr_status_decomposition.2.2.2.1 0x11 (by decide)).2 [__ENE_ISR_PRX, __ENE_ISR_OVW]
     (by decide)⟩

/-- C23: register index map. Inside each of the three register sets of the
header (page 0 read, page 0 write, page 1) no two registers share an index;
every index is at most 0x0F; the command register is index 0x00 and neither
the page 0 write set nor the page 1 set uses index 0x00; the data port 0x10
and the reset port 0x1F lie past 0x0F. -/
theorem ene_register_map_well_formed :
    (ene_page0_read_regs.Nodup ∧ ene_page0_write_regs.Nodup ∧ ene_page1_regs.Nodup) ∧
    (∀ r ∈ ene_page0_read_regs ++ ene_page0_write_regs ++ ene_page1_regs, r ≤ 0x0F) ∧
    (__ENE_CR = 0x00 ∧ __ENE_CR ∈ ene_page0_read_regs ∧
      __ENE_CR ∉ ene_page0_write_regs ∧ __ENE_CR ∉ ene_page1_regs) ∧
    (__ENE_IOPORT = 0x10 ∧ __ENE_RESET = 0x1F ∧ 0x0F < __ENE_IOPORT ∧ 0x0F < __ENE_RESET) := by
  decide

theorem or_and_right (a b m : Nat) : (a ||| b) &&& m = (a &&& m) ||| (b &&& m) := by
  rw [Nat.and_comm, Nat.and_or_distrib_left, Nat.and_comm m a, Nat.and_comm m b]

theorem and_or_keep (c n p m : Nat) (h1 : n &&& m = m) (h2 : p &&& m = 0) :
    ((c &&& n) ||| p) &&& m = c &&& m := by
  rw [or_and_right, Nat.and_assoc, h1, h2, Nat.or_zero]

/-- C24: command register fields. The masks STOP, START, TXP, RDMA_CMD and
PAGESEL are pairwise disjoint and their OR is 0xFF; the four remote DMA
command codes are non-zero, pairwise distinct and inside RDMA_CMD; and for
every command byte `c` and page select code `p`, `(c AND NOT 0xC0) OR p` has
the stop, start, transmit and remote DMA fields of `c` and the page select
field `p`. -/
theorem ene_cr_fields_partition :
    ene_cr_fields.Pairwise (fun a b => a &&& b = 0) ∧
    ene_or_all ene_cr_fields = 0xFF ∧
    (∀ r ∈ ene_rdma_cmds, r ≠ 0 ∧ r &&& __ENE_CR_RDMA_CMD = r) ∧
    ene_rdma_cmds.Nodup ∧
    (∀ c p : Nat, p ∈ ene_pagesel_codes →
      ((c &&& (0xFF ^^^ __ENE_CR_PAGESEL)) ||| p) &&& __ENE_CR_STOP = c &&& __ENE_CR_STOP ∧
      ((c &&& (0xFF ^^^ __ENE_CR_PAGESEL)) ||| p) &&& __ENE_CR_START = c &&& __ENE_CR_START ∧
      ((c &&& (0xFF ^^^ __ENE_CR_PAGESEL)) ||| p) &&& __ENE_CR_TXP = c &&& __ENE_CR_TXP ∧
      ((c &&& (0xFF ^^^ __ENE_CR_PAGESEL)) ||| p) &&& __ENE_CR_RDMA_CMD =
        c &&& __ENE_CR_RDMA_CMD ∧
      ((c &&& (0xFF ^^^ __ENE_CR_PAGESEL)) ||| p) &&& __ENE_CR_PAGESEL = p) := by
  refine ⟨by decide, by decide, by decide, by decide, ?_⟩
  intro c p hp
  have hps : p &&& __ENE_CR_PAGESEL = p := by
    revert p
    decide
  have hz : ∀ m, __ENE_CR_PAGESEL &&& m = 0 → p &&& m = 0 := by
    intro m hm
    rw [← hps, Nat.and_assoc, hm, Nat.and_zero]
  refine ⟨and_or_keep c _ p _ (by decide) (hz _ (by decide)),
    and_or_keep c _ p _ (by decide) (hz _ (by decide)),
    and_or_keep c _ p _ (by decide) (hz _ (by decide)),
    and_or_keep c _ p _ (by decide) (hz _ (by decide)), ?_⟩
  rw [or_and_right, Nat.and_assoc, hps]
  have h0 : (0xFF ^^^ __ENE_CR_PAGESEL) &&& __ENE_CR_PAGESEL = 0 := by decide
  rw [h0, Nat.and_zero, Nat.zero_or]

/-- Witness for C24: selecting page 1 in the command byte 0x22 (start, remote
DMA abort, page 0) gives 0x62, and selecting page 0 in 0x62 gives 0x22 back. -/
theorem ene_cr_fields_partition_witness :
    __ENE_PAGESEL_1 ∈ ene_pagesel_codes ∧
    ((0x22 &&& (0xFF ^^^ __ENE_CR_PAGESEL)) ||| __ENE_PAGESEL_1) = 0x62 ∧
    ((0x22 &&& (0xFF ^^^ __ENE_CR_PAGESEL)) ||| __ENE_PAGESEL_1) &&& __ENE_CR_RDMA_CMD =
      __ENE_RDMA_ABORT ∧
    ((0x22 &&& (0xFF ^^^ __ENE_CR_PAGESEL)) ||| __ENE_PAGESEL_1) &&& __ENE_CR_PAGESEL =
      __ENE_PAGESEL_1 :=
  ⟨by decide, by decide,
   (ene_cr_fields_partition.2.2.2.2 0x22 __ENE_PAGESEL_1 (by decide)).2.2.2.1.trans (by decide),
   (ene_cr_fields_partition.2.2.2.2 0x22 __ENE_PAGESEL_1 (by decide)).2.2.2.2⟩

/-! ## Claims C25 and C26: write truncation, read-back and frame of a write -/

theorem ene_shift_some (p_this : awbl_ne2000_dev) (i : Nat)
    (hi : i < p_this.reg_offset.length) :
    __ENE_SHIFT p_this i = some (p_this.reg_offset.getD i 0 % 2 ^ 32) := by
  simp [__ENE_SHIFT, List.getD, List.getElem?_eq_getElem hi]

/-- C25: write truncation and read-back. With device memory a byte map
without side effects, for every base, offset table, index `i` inside the
table and integer `data`: `__ENEREG_BYTE_WRITE` followed by
`__ENEREG_BYTE_READ` of the same register gives `data mod 2^8`, and
`__ENEREG_SHORT_WRITE` followed by `__ENEREG_SHORT_READ` of the same register
gives `data mod 2^16`. -/
theorem ene_write_read_back (m : DevMem) (p_this : awbl_ne2000_dev) (base i data : Nat)
    (hi : i < p_this.reg_offset.length) :
    (__ENEREG_BYTE_WRITE m p_this base i data).bind
        (fun m1 => __ENEREG_BYTE_READ m1 p_this base i) = some (data % 2 ^ 8) ∧
    (__ENEREG_SHORT_WRITE m p_this base i data).bind
        (fun m2 => __ENEREG_SHORT_READ m2 p_this base i) = some (data % 2 ^ 16) := by
  have ha := ene_reg_addr_some p_this base i hi
  generalize (base + p_this.reg_offset.getD i 0 % 2 ^ 32) % 2 ^ 32 = a at ha
  constructor
  · simp only [__ENEREG_BYTE_WRITE, __ENEREG_BYTE_READ, ha, Option.map_some',
      Option.some_bind, if_true]
    congr 1
    omega
  · have h1 : a + 1 ≠ a := Nat.succ_ne_self a
    simp only [__ENEREG_SHORT_WRITE, __ENEREG_SHORT_READ, ha, Option.map_some',
      Option.some_bind, if_true, if_neg h1]
    congr 1
    omega

/-- Witness for C25: on the board that maps register `i` to `4 * i`, writing
0x1FF to the interrupt mask register reads back 0xFF, and writing 0x12345 as
a short reads back 0x2345. -/
theorem ene_write_read_back_witness :
    __ENE_IMR < dev_word_bus.reg_offset.length ∧
    (__ENEREG_BYTE_WRITE (fun _ => 0) dev_word_bus 0x8000 __ENE_IMR 0x1FF).bind
        (fun m1 => __ENEREG_BYTE_READ m1 dev_word_bus 0x8000 __ENE_IMR) = some 0xFF ∧
    (__ENEREG_SHORT_WRITE (fun _ => 0) dev_word_bus 0x8000 __ENE_IMR 0x12345).bind
        (fun m2 => __ENEREG_SHORT_READ m2 dev_word_bus 0x8000 __ENE_IMR) = some 0x2345 :=
  ⟨by decide,
   (ene_write_read_back (fun _ => 0) dev_word_bus 0x8000 __ENE_IMR 0x1FF (by decide)).1,
   (ene_write_read_back (fun _ => 0) dev_word_bus 0x8000 __ENE_IMR 0x12345 (by decide)).2⟩

/-- C26: frame of a byte write. For every base, offset table and index `i`
inside the table, `__ENEREG_BYTE_WRITE(base, i, data)` changes no byte other
than the one at the address of register `i`, and for every index `j` inside
the table with `reg_offset[j] != reg_offset[i]` a following
`__ENEREG_BYTE_READ(base, j)` returns what it returned before the write. The
device instance with its offset table is read by the macro and is not among
the things it changes. -/
theorem ene_byte_write_frame (m : DevMem) (p_this : awbl_ne2000_dev) (base i j data : Nat)
    (hi : i < p_this.reg_offset.length) (hj : j < p_this.reg_offset.length)
    (hne : __ENE_SHIFT p_this j ≠ __ENE_SHIFT p_this i) :
    (∃ a m1, ene_reg_addr p_this base i = some a ∧
      __ENEREG_BYTE_WRITE m p_this base i data = some m1 ∧
      (∀ x, x ≠ a → m1 x = m x) ∧ ene_reg_addr p_this base j ≠ some a) ∧
    (__ENEREG_BYTE_READ m p_this base j).isSome = true ∧
    (__ENEREG_BYTE_WRITE m p_this base i data).bind
        (fun m1 => __ENEREG_BYTE_READ m1 p_this base j) = __ENEREG_BYTE_READ m p_this base j := by
  have hai := ene_reg_addr_some p_this base i hi
  have haj := ene_reg_addr_some p_this base j hj
  rw [ene_shift_some p_this i hi, ene_shift_some p_this j hj] at hne
  have hne2 : p_this.reg_offset.getD j 0 % 2 ^ 32 ≠ p_this.reg_offset.getD i 0 % 2 ^ 32 :=
    fun h => hne (congrArg some h)
  have hd : (base + p_this.reg_offset.getD j 0 % 2 ^ 32) % 2 ^ 32 ≠
      (base + p_this.reg_offset.getD i 0 % 2 ^ 32) % 2 ^ 32 := by
    omega
  generalize (base + p_this.reg_offset.getD i 0 % 2 ^ 32) % 2 ^ 32 = a at hai hd
  generalize (base + p_this.reg_offset.getD j 0 % 2 ^ 32) % 2 ^ 32 = b at haj hd
  refine ⟨⟨a, fun x => if x = a then data % 256 else m x, hai, ?_, ?_, ?_⟩, ?_, ?_⟩
  · simp only [__ENEREG_BYTE_WRITE, hai, Option.map_some']
  · intro x hx
    simp only [if_neg hx]
  · rw [haj]
    exact fun h => hd (Option.some.inj h)
  · simp only [__ENEREG_BYTE_READ, haj, Option.map_some', Option.isSome_some]
  · simp only [__ENEREG_BYTE_WRITE, __ENEREG_BYTE_READ, hai, haj, Option.map_some',
      Option.some_bind, if_neg hd]

/-- Witness for C26: on the board that maps register `i` to `4 * i`, a write
of 0xFF to the interrupt status register leaves the command register, which
reads 0x22, as it was. -/
theorem ene_byte_write_frame_witness :
    (__ENE_ISR < dev_word_bus.reg_offset.length ∧ __ENE_CR < dev_word_bus.reg_offset.length ∧
      __ENE_SHIFT dev_word_bus __ENE_CR ≠ __ENE_SHIFT dev_word_bus __ENE_ISR) ∧
    (__ENEREG_BYTE_WRITE (fun _ => 0x22) dev_word_bus 0x8000 __ENE_ISR 0xFF).bind
        (fun m1 => __ENEREG_BYTE_READ m1 dev_word_bus 0x8000 __ENE_CR) = some 0x22 :=
  ⟨⟨by decide, by decide, by decide⟩,
   (ene_byte_write_frame (fun _ => 0x22) dev_word_bus 0x8000 __ENE_ISR __ENE_CR 0xFF
     (by decide) (by decide) (by decide)).2.2.trans (by decide)⟩

end NE2000

/-! ## Claims C17 to C20 and C22: I2C interface -/

namespace AW_I2C

/-- C17: postcondition of `aw_i2c_mkmsg`. Whatever `*p_msg` held before and
for all arguments (`trans_num` a `uint16_t`), the message afterwards has
`p_transfers`, `trans_num`, `pfunc_complete` and `p_arg` equal to the
arguments, `done_num = 0` and `status = -ENOTCONN`, and `ctlrdata` is as
before; a second call with the same arguments changes nothing. -/
theorem aw_i2c_mkmsg_post (ENOTCONN : Int) (p_msg : aw_i2c_message)
    (p_transfers trans_num pfunc_complete p_arg : Nat) (ht : trans_num < 2 ^ 16) :
    (aw_i2c_mkmsg ENOTCONN p_msg p_transfers trans_num pfunc_complete p_arg).p_transfers
      = p_transfers ∧
    (aw_i2c_mkmsg ENOTCONN p_msg p_transfers trans_num pfunc_complete p_arg).trans_num
      = trans_num ∧
    (aw_i2c_mkmsg ENOTCONN p_msg p_transfers trans_num pfunc_complete p_arg).pfunc_complete
      = pfunc_complete ∧
    (aw_i2c_mkmsg ENOTCONN p_msg p_transfers trans_num pfunc_complete p_arg).p_arg = p_arg ∧
    (aw_i2c_mkmsg ENOTCONN p_msg p_transfers trans_num pfunc_complete p_arg).done_num = 0 ∧
    (aw_i2c_mkmsg ENOTCONN p_msg p_transfers trans_num pfunc_complete p_arg).status
      = -ENOTCONN ∧
    (aw_i2c_mkmsg ENOTCONN p_msg p_transfers trans_num pfunc_complete p_arg).ctlrdata
      = p_msg.ctlrdata ∧
    aw_i2c_mkmsg ENOTCONN
        (aw_i2c_mkmsg ENOTCONN p_msg p_transfers trans_num pfunc_complete p_arg)
        p_transfers trans_num pfunc_complete p_arg
      = aw_i2c_mkmsg ENOTCONN p_msg p_transfers trans_num pfunc_complete p_arg :=
  ⟨rfl, Nat.mod_eq_of_lt ht, rfl, rfl, rfl, rfl, rfl, rfl⟩

/-- Witness for C17: a message with stale contents, two transfers, and 107
for `ENOTCONN`. -/
theorem aw_i2c_mkmsg_post_witness :
    (2 : Nat) < 2 ^ 16 ∧
    (aw_i2c_mkmsg 107
        { p_transfers := 9, trans_num := 9, done_num := 9, pfunc_complete := 9, p_arg := 9,
          status := 9, ctlrdata := (5, 6) } 0x1000 2 0x2000 0x3000).trans_num = 2 ∧
    (aw_i2c_mkmsg 107
        { p_transfers := 9, trans_num := 9, done_num := 9, pfunc_complete := 9, p_arg := 9,
          status := 9, ctlrdata := (5, 6) } 0x1000 2 0x2000 0x3000).status = -107 :=
  ⟨by decide,
   (aw_i2c_mkmsg_post 107
     { p_transfers := 9, trans_num := 9, done_num := 9, pfunc_complete := 9, p_arg := 9,
       status := 9, ctlrdata := (5, 6) } 0x1000 2 0x2000 0x3000 (by decide)).2.1,
   (aw_i2c_mkmsg_post 107
     { p_transfers := 9, trans_num := 9, done_num := 9, pfunc_complete := 9, p_arg := 9,
       status := 9, ctlrdata := (5, 6) } 0x1000 2 0x2000 0x3000 (by decide)).2.2.2.2.2.1⟩

/-- C18: `aw_i2c_mktrans` and `aw_i2c_mkdev` store their arguments unchanged.
For arguments of the parameter types (`uint16_t addr`, `uint16_t flags`, a
pointer `p_buf`, `size_t nbytes`; `uint8_t busid`), the transfer gets `addr`,
`flags`, `p_buf` and `nbytes` from the second to fifth argument in that order
and the device gets `busid`, `addr` and `flags`; nothing is truncated or
swapped. -/
theorem aw_i2c_mk_store (p_trans : aw_i2c_transfer) (p_dev : aw_i2c_device)
    (addr flags p_buf nbytes busid : Nat)
    (ha : addr < 2 ^ 16) (hf : flags < 2 ^ 16) (hn : nbytes < 2 ^ 32) (hb : busid < 2 ^ 8) :
    aw_i2c_mktrans p_trans addr flags p_buf nbytes =
      { addr := addr, flags := flags, p_buf := p_buf, nbytes := nbytes } ∧
    aw_i2c_mkdev p_dev busid addr flags = { busid := busid, addr := addr, flags := flags } := by
  simp only [aw_i2c_mktrans, aw_i2c_mkdev, Nat.mod_eq_of_lt ha, Nat.mod_eq_of_lt hf,
    Nat.mod_eq_of_lt hn, Nat.mod_eq_of_lt hb, and_self]

/-- Witness for C18: one byte from a buffer at 0x2000 for the device at
address 0x50, with distinct values in every position. -/
theorem aw_i2c_mk_store_witness :
    ((0x50 : Nat) < 2 ^ 16 ∧ (AW_I2C_M_RD : Nat) < 2 ^ 16 ∧ (1 : Nat) < 2 ^ 32 ∧
      (3 : Nat) < 2 ^ 8) ∧
    aw_i2c_mktrans { addr := 7, flags := 7, p_buf := 7, nbytes := 7 } 0x50 AW_I2C_M_RD 0x2000 1
      = { addr := 0x50, flags := AW_I2C_M_RD, p_buf := 0x2000, nbytes := 1 } ∧
    aw_i2c_mkdev { busid := 7, addr := 7, flags := 7 } 3 0x50 AW_I2C_M_RD
      = { busid := 3, addr := 0x50, flags := AW_I2C_M_RD } :=
  ⟨by decide,
   aw_i2c_mk_store { addr := 7, flags := 7, p_buf := 7, nbytes := 7 }
     { busid := 7, addr := 7, flags := 7 } 0x50 AW_I2C_M_RD 0x2000 1 3
     (by decide) (by decide) (by decide) (by decide)⟩

theorem subaddr_len_or (c x : Nat) (hx : x &&& 0xF000 = 0) :
    AW_I2C_SUBADDR_LEN_GET (c ||| x) = AW_I2C_SUBADDR_LEN_GET c := by
  unfold AW_I2C_SUBADDR_LEN_GET
  have h : (c ||| x) &&& 0xF000 = c &&& 0xF000 := by
    rw [Nat.and_comm, Nat.and_or_distrib_left, Nat.and_comm 0xF000 x, hx, Nat.or_zero,
      Nat.and_comm]
  rw [h]

/-- C19: sub-address length extraction. For every flags value `f`,
`AW_I2C_SUBADDR_LEN_GET(f) = (f AND 0xF000) / 4096`; and for every `x` with
no bit inside 0xF000, the length extracted from `AW_I2C_SUBADDR_NONE OR x`,
`AW_I2C_SUBADDR_1BYTE OR x` and `AW_I2C_SUBADDR_2BYTE OR x` is 0, 1 and 2. -/
theorem aw_i2c_subaddr_len (f x : Nat) (hx : x &&& 0xF000 = 0) :
    AW_I2C_SUBADDR_LEN_GET f = (f &&& 0xF000) / 4096 ∧
    AW_I2C_SUBADDR_LEN_GET (AW_I2C_SUBADDR_NONE ||| x) = 0 ∧
    AW_I2C_SUBADDR_LEN_GET (AW_I2C_SUBADDR_1BYTE ||| x) = 1 ∧
    AW_I2C_SUBADDR_LEN_GET (AW_I2C_SUBADDR_2BYTE ||| x) = 2 := by
  refine ⟨?_, ?_, ?_, ?_⟩
  · unfold AW_I2C_SUBADDR_LEN_GET
    rw [Nat.shiftRight_eq_div_pow]
  · rw [subaddr_len_or _ x hx]; decide
  · rw [subaddr_len_or _ x hx]; decide
  · rw [subaddr_len_or _ x hx]; decide

/-- Witness for C19: 10-bit address, ignore-NAK and low-byte-first flags
next to a 2-byte sub-address. -/
theorem aw_i2c_subaddr_len_witness :
    (AW_I2C_ADDR_10BIT ||| AW_I2C_IGNORE_NAK ||| AW_I2C_SUBADDR_LSB_FIRST) &&& 0xF000 = 0 ∧
    AW_I2C_SUBADDR_LEN_GET (AW_I2C_SUBADDR_2BYTE |||
      (AW_I2C_ADDR_10BIT ||| AW_I2C_IGNORE_NAK ||| AW_I2C_SUBADDR_LSB_FIRST)) = 2 :=
  ⟨by decide,
   (aw_i2c_subaddr_len 0 (AW_I2C_ADDR_10BIT ||| AW_I2C_IGNORE_NAK ||| AW_I2C_SUBADDR_LSB_FIRST)
     (by decide)).2.2.2⟩

/-- C20: documented I2C flag defaults. The flag words `0`, `AW_I2C_M_WR` and
`AW_I2C_M_7BIT OR AW_I2C_M_WR` are equal; `AW_I2C_M_RD` and `AW_I2C_M_10BIT`
are non-zero and distinct; the device-flag aliases equal the transfer flags
they name. -/
theorem aw_i2c_flag_defaults :
    (0 = AW_I2C_M_WR ∧ AW_I2C_M_WR = (AW_I2C_M_7BIT ||| AW_I2C_M_WR)) ∧
    (AW_I2C_M_RD ≠ 0 ∧ AW_I2C_M_10BIT ≠ 0 ∧ AW_I2C_M_RD ≠ AW_I2C_M_10BIT) ∧
    (AW_I2C_ADDR_7BIT = AW_I2C_M_7BIT ∧ AW_I2C_ADDR_10BIT = AW_I2C_M_10BIT ∧
      AW_I2C_IGNORE_NAK = AW_I2C_M_IGNORE_NAK) := by
  decide

/-- C22: I2C flag spaces do not overlap. The seven non-zero transfer control
flags are the single bits 2^0 .. 2^6, pairwise disjoint and inside
`AW_I2C_M_MASK = 0x00FF`; the device-only flags `AW_I2C_SUBADDR_LSB_FIRST`,
`AW_I2C_SUBADDR_1BYTE` and `AW_I2C_SUBADDR_2BYTE` have no bit inside the
mask. So for every flags word `f`, `f AND AW_I2C_M_MASK` holds each transfer
control flag exactly when `f` does and holds no device-only flag, and a word
made of transfer control flags `t` and device-only flags `d` is masked to
`t`. -/
theorem aw_i2c_flag_spaces :
    (AW_I2C_M_MASK = 0x00FF ∧ aw_i2c_m_flags = (List.range 7).map (fun k => 2 ^ k) ∧
      aw_i2c_m_flags.Pairwise (fun a b => a &&& b = 0)) ∧
    (∀ m ∈ aw_i2c_m_flags, m ≠ 0 ∧ m &&& AW_I2C_M_MASK = m) ∧
    (∀ d ∈ aw_i2c_dev_only_flags, d ≠ 0 ∧ d &&& AW_I2C_M_MASK = 0) ∧
    (∀ f : Nat,
      (∀ m ∈ aw_i2c_m_flags, (f &&& AW_I2C_M_MASK) &&& m = f &&& m) ∧
      (∀ d ∈ aw_i2c_dev_only_flags, (f &&& AW_I2C_M_MASK) &&& d = 0)) ∧
    (∀ t d : Nat, t &&& AW_I2C_M_MASK = t → d &&& AW_I2C_M_MASK = 0 →
      (t ||| d) &&& AW_I2C_M_MASK = t) := by
  have hm : ∀ m ∈ aw_i2c_m_flags, m ≠ 0 ∧ m &&& AW_I2C_M_MASK = m := by decide
  have hd : ∀ d ∈ aw_i2c_dev_only_flags, d ≠ 0 ∧ d &&& AW_I2C_M_MASK = 0 := by decide
  refine ⟨by decide, hm, hd, ?_, ?_⟩
  · intro f
    constructor
    · intro m hmem
      rw [Nat.and_assoc, Nat.and_comm AW_I2C_M_MASK m, (hm m hmem).2]
    · intro d hmem
      rw [Nat.and_assoc, Nat.and_comm AW_I2C_M_MASK d, (hd d hmem).2, Nat.and_zero]
  · intro t d ht hdz
    rw [Nat.and_comm, Nat.and_or_distrib_left, Nat.and_comm AW_I2C_M_MASK t,
      Nat.and_comm AW_I2C_M_MASK d, ht, hdz, Nat.or_zero]

/-- Witness for C22: the flags of a device with a 10-bit address that ignores
a missing acknowledge and has a 2-byte sub-address sent low byte first are
masked to the two transfer control flags. -/
theorem aw_i2c_flag_spaces_witness :
    ((AW_I2C_ADDR_10BIT ||| AW_I2C_IGNORE_NAK) &&& AW_I2C_M_MASK =
        (AW_I2C_ADDR_10BIT ||| AW_I2C_IGNORE_NAK) ∧
      (AW_I2C_SUBADDR_2BYTE ||| AW_I2C_SUBADDR_LSB_FIRST) &&& AW_I2C_M_MASK = 0) ∧
    ((AW_I2C_ADDR_10BIT ||| AW_I2C_IGNORE_NAK) |||
        (AW_I2C_SUBADDR_2BYTE ||| AW_I2C_SUBADDR_LSB_FIRST)) &&& AW_I2C_M_MASK =
      (AW_I2C_M_10BIT ||| AW_I2C_M_IGNORE_NAK) :=
  ⟨⟨by decide, by decide⟩,
   aw_i2c_flag_spaces.2.2.2.2 (AW_I2C_ADDR_10BIT ||| AW_I2C_IGNORE_NAK)
     (AW_I2C_SUBADDR_2BYTE ||| AW_I2C_SUBADDR_LSB_FIRST) (by decide) (by decide)⟩

end AW_I2C
